import Mathlib

/-!
# G'MIC-Qt filter execution coordinator (`src/GmicProcessor.cpp`)

A shallow embedding of `GmicProcessor`: the coordinator state is a record, the
`FilterThread` objects it points to live in an explicit heap, every member
function is a function on states that also returns the list of signals it emits
and of external calls it makes, and the results of the external collaborators
(host image provider, engine, clock, random generator) enter as inputs.
-/

namespace GmicQt

/-! ## Data model -/

/-- An image buffer (`cimg_library::CImg<float>`): its four dimensions and its
samples. Only the dimensions are inspected by the coordinator; samples are
carried as integers because no operation of the coordinator computes on them. -/
structure CImg where
  width : Nat
  height : Nat
  depth : Nat
  spectrum : Nat
  data : List Int
deriving DecidableEq, Repr

/-- The empty image, as built by `new cimg_library::CImg<float>`. -/
def CImg.empty : CImg := ⟨0, 0, 0, 0, []⟩

/-- The three modes of `GmicQt::InputOutputState` (enumeration values). -/
structure InputOutputState where
  inputMode : Nat
  outputMode : Nat
  previewMode : Nat
deriving DecidableEq, Repr

/-- The request kinds of `FilterContext::RequestType`. -/
inductive RequestType where
  | SynchronousPreviewProcessing
  | PreviewProcessing
  | FullImageProcessing
deriving DecidableEq, Repr

/-- The request descriptor `GmicProcessor::FilterContext`. The floating-point
members (`visibleRect`, `zoomFactor`, `positionStringCorrection`) are only
forwarded to external providers, whose answers are inputs of `execute`; they are
not part of the embedding. -/
structure FilterContext where
  requestType : RequestType
  inputOutputState : InputOutputState
  outputMessageMode : Nat
  previewWidth : Int
  previewHeight : Int
  previewTimeout : Int
  filterCommand : String
  filterArguments : String
  filterHash : String
  filterFullPath : String
deriving DecidableEq, Repr

/-- The slots of `GmicProcessor` a thread's `finished()` signal can be
connected to. -/
inductive Slot where
  | onPreviewThreadFinished
  | onApplyThreadFinished
  | onAbortedThreadFinished
deriving DecidableEq, Repr

/-- A job handle (`FilterThread`), as far as the coordinator observes it.
`finishedSlots` are the slots of the coordinator connected to `finished()`,
`abortRequested` records a call of `abortGmic()` (it is what `aborted()`
returns), `deleteLaterCalled` a call of `deleteLater()`. -/
structure FilterThread where
  command : String
  arguments : String
  environment : String
  outputMessageMode : Nat
  images : List CImg
  imageNames : List String
  logSuffix : String
  finishedSlots : List Slot
  running : Bool
  failed : Bool
  errorMessage : String
  gmicStatus : List String
  parametersVisibilityStates : List Int
  abortRequested : Bool
  deleteLaterCalled : Bool
deriving DecidableEq, Repr

/-- Modelled from the spec: the constructor of `FilterThread` is not under
`src/`. A job handle is created at dispatch time with empty buffers (they are
moved in afterwards), outcome pending, not yet started. -/
def FilterThread.create (command arguments environment : String) (outputMessageMode : Nat) :
    FilterThread :=
  { command := command, arguments := arguments, environment := environment,
    outputMessageMode := outputMessageMode, images := [], imageNames := [], logSuffix := "",
    finishedSlots := [], running := false, failed := false, errorMessage := "",
    gmicStatus := [], parametersVisibilityStates := [], abortRequested := false,
    deleteLaterCalled := false }

/-- What a foreground run leaves in a `FilterSyncRunner`, read by
`manageSynchonousRunner`. -/
structure FilterSyncRunner where
  failed : Bool
  errorMessage : String
  gmicStatus : List String
  parametersVisibilityStates : List Int
  images : List CImg
deriving DecidableEq, Repr

/-- Signals emitted by the coordinator and calls it makes to its external
collaborators, in program order. -/
inductive Effect where
  | previewImageAvailable
  | previewCommandFailed (message : String)
  | fullImageProcessingDone
  | fullImageProcessingFailed (message : String)
  | noMoreUnfinishedJobs
  | aboutToSendImagesToHost
  | gmic_qt_output_images (images : List CImg) (imageNames : List String) (outputMode : Nat)
  | layersExtentProxyClear
  | croppedActiveLayerProxyClear
  | croppedImageListProxyClear
  | srandFresh
  | srand (seed : Nat)
  | runnerRun (command arguments environment : String)
  | threadStart (thread : Nat)
  | abortGmic (thread : Nat)
  | setWaiting (waiting : Bool)
deriving DecidableEq, Repr

/-- The four outcome notifications. -/
def Effect.isOutcome : Effect → Bool
  | .previewImageAvailable => true
  | .previewCommandFailed _ => true
  | .fullImageProcessingDone => true
  | .fullImageProcessingFailed _ => true
  | _ => false

/-- The constants and pure external functions the coordinator is compiled
against; their declarations are not under `src/`. -/
structure Externals where
  KEYPOINTS_INTERACTIVE_AVERAGING_COUNT : Nat
  WAITING_CURSOR_DELAY : Nat
  hostApplicationNameIsEmpty : Bool
  gmic_qt_apply_color_profile : CImg → CImg
  buildPreviewImage : List CImg → CImg → Nat → Int → Int → CImg
  outputImagesBuffer : List CImg → List String → Nat → List CImg
  updateImageNames : FilterContext → Nat → Nat → List String → List String

/-- The state of a `GmicProcessor`. `threads` is the heap of `FilterThread`
objects: a pointer is an index into it, `new` appends. `timerActive` is
`_waitingCursorTimer.isActive()`, `overrideCursorWaiting` the state of
`OverrideCursor`. -/
structure GmicProcessor where
  threads : List FilterThread
  _filterContext : FilterContext
  _filterThread : Option Nat
  _gmicImages : List CImg
  _previewImage : CImg
  _unfinishedAbortedThreads : List Nat
  _previewRandomSeed : Nat
  _gmicStatus : List String
  _parametersVisibilityStates : List Int
  _lastAppliedFilterHash : String
  _lastAppliedFilterPath : String
  _lastAppliedCommand : String
  _lastAppliedCommandArguments : String
  _lastAppliedCommandGmicStatus : List String
  _lastAppliedCommandInOutState : InputOutputState
  _gmicStatusQuotedParameters : String
  _lastFilterPreviewExecutionDurations : List Int
  _completeFullImageProcessingCount : Int
  timerActive : Bool
  overrideCursorWaiting : Bool
deriving DecidableEq, Repr

/-! ## Result validator -/

/-- Modelled from the spec: `GmicQt::checkImageSpectrumAtMost4` is not under
`src/`. It scans the images in order and reports the first index whose channel
count exceeds 4 (`some index`), or `none` when every image has at most 4. -/
def checkImageSpectrumAtMost4 : List CImg → Option Nat
  | [] => none
  | img :: rest =>
    if img.spectrum > 4 then some 0
    else (checkImageSpectrumAtMost4 rest).map (· + 1)

/-- The expression `(*_gmicImages)[index].spectrum()`. -/
def spectrumAt (images : List CImg) (index : Nat) : Nat :=
  match images[index]? with
  | some img => img.spectrum
  | none => 0

/-! ## Telemetry window -/

/-- The loop `while (size() >= K) pop_front();`. `none` stands for popping the
front of an empty container, which only happens when `K = 0` (the loop then
never exits normally). -/
def evictWhileFull (K : Nat) : List Int → Option (List Int)
  | [] => if 0 ≥ K then none else some []
  | d :: rest => if (d :: rest).length ≥ K then evictWhileFull K rest else some (d :: rest)

/-- The window after `recordPreviewFilterExecutionDurationMS(duration)`. -/
def recordPreviewFilterExecutionDurationMS (K : Nat) (window : List Int) (duration : Int) :
    Option (List Int) :=
  evictWhileFull K (window ++ [duration])

/-- Successive calls of `recordPreviewFilterExecutionDurationMS`, one per
duration, in order. -/
def recordDurations (K : Nat) (window : List Int) (durations : List Int) : Option (List Int) :=
  durations.foldlM (recordPreviewFilterExecutionDurationMS K) window

/-- The result of `lastPreviewFilterExecutionDurationMS()`. -/
def lastPreviewFilterExecutionDurationMS (window : List Int) : Int :=
  if window.isEmpty then 0 else window.getLast?.getD 0

/-- The window after `resetLastPreviewFilterExecutionDurations()`. -/
def resetLastPreviewFilterExecutionDurations (_window : List Int) : List Int :=
  []

/-- The result of `averagePreviewFilterExecutionDuration()`. The sum is
accumulated in a `double`, exact for sums below `2^53`, and the quotient is
cast to `int`, which truncates toward zero. -/
def averagePreviewFilterExecutionDuration (window : List Int) : Int :=
  if window.isEmpty then 0 else Int.tdiv window.sum window.length

/-! ## Markup cleanup (`src/HtmlTranslator.cpp`) -/

namespace HtmlTranslator

/-- The index of the first `>` of the text, if it has one. -/
def closeIndex : List Char → Option Nat
  | [] => none
  | c :: rest => if c = '>' then some 0 else (closeIndex rest).map (· + 1)

/-- The regular expression `<[^>]*>` anchored at the head of the text: the
length of its match, if it matches. The head must be `<`; `[^>]*` then takes
every character up to the first `>`, which closes the match. -/
def matchTag : List Char → Option Nat
  | [] => none
  | c :: rest => if c = '<' then (closeIndex rest).map (· + 2) else none

/-- The text after `QString::remove(QRegularExpression("<[^>]*>"))`: the
matches are searched from left to right and do not overlap. `skip` is the
number of characters still to drop from the match in progress; outside a match
the expression is tried at the current position, and the character is kept
when it does not match there. -/
def removeMatches : List Char → Nat → List Char
  | [], _ => []
  | _ :: rest, skip + 1 => removeMatches rest skip
  | c :: rest, 0 =>
    match matchTag (c :: rest) with
    | some n => removeMatches rest (n - 1)
    | none => c :: removeMatches rest 0

/-- The function `HtmlTranslator::removeTags`; a `QString` is taken as its
sequence of characters. -/
def removeTags (str : String) : String :=
  String.mk (removeMatches str.data 0)

/-- Some position of the text starts a match of `<[^>]*>`. -/
def containsTag : List Char → Bool
  | [] => false
  | c :: rest => (matchTag (c :: rest)).isSome || containsTag rest

end HtmlTranslator

/-! ## Coordinator operations -/

/-- What the external collaborators answer during one call of `execute`:
the working set of `CroppedImageListProxy::get`, the extent of
`LayersExtentProxy::getExtent`, the value of `cimg::_rand()` after
`cimg::srand()`, what `runner.run()` leaves in the runner (synchronous
requests), and `(int)_filterExecutionTime.elapsed()` afterwards. -/
structure ExecuteInput where
  images : List CImg
  imageNames : List String
  extentWidth : Nat
  extentHeight : Nat
  rand : Nat
  runner : FilterSyncRunner
  elapsed : Int
deriving DecidableEq, Repr

/-- What the engine leaves in a `FilterThread` when its `run()` returns. -/
structure ThreadOutcome where
  failed : Bool
  errorMessage : String
  gmicStatus : List String
  parametersVisibilityStates : List Int
  images : List CImg
  imageNames : List String
deriving DecidableEq, Repr

namespace GmicProcessor

/-- The constructor `GmicProcessor::GmicProcessor`; `unspecified` is
`InputOutputState::Unspecified`, `rand` the value of `cimg::_rand()`, and
`context` the default-constructed `_filterContext`. -/
def create (context : FilterContext) (unspecified : InputOutputState) (rand : Nat) :
    GmicProcessor :=
  { threads := [], _filterContext := context, _filterThread := none, _gmicImages := [],
    _previewImage := CImg.empty, _unfinishedAbortedThreads := [], _previewRandomSeed := rand,
    _gmicStatus := [], _parametersVisibilityStates := [], _lastAppliedFilterHash := "",
    _lastAppliedFilterPath := "", _lastAppliedCommand := "", _lastAppliedCommandArguments := "",
    _lastAppliedCommandGmicStatus := [], _lastAppliedCommandInOutState := unspecified,
    _gmicStatusQuotedParameters := "", _lastFilterPreviewExecutionDurations := [],
    _completeFullImageProcessingCount := 0, timerActive := false,
    overrideCursorWaiting := false }

/-- Applies `f` to the thread object `p` points to. -/
def updateThread (s : GmicProcessor) (p : Nat) (f : FilterThread → FilterThread) :
    GmicProcessor :=
  match s.threads[p]? with
  | some t => { s with threads := s.threads.set p (f t) }
  | none => s

/-- The member `setContext`. -/
def setContext (s : GmicProcessor) (context : FilterContext) : GmicProcessor :=
  { s with _filterContext := context }

/-- Modelled from the spec: `OverrideCursor::setWaiting` is not under `src/`
(the header there declares another interface). It signals the busy indicator
to the UI: shown for `true`, hidden for `false`. -/
abbrev setWaiting (s : GmicProcessor) (waiting : Bool) : GmicProcessor × List Effect :=
  ({ s with overrideCursorWaiting := waiting }, [Effect.setWaiting waiting])

/-- The member `hideWaitingCursor`. -/
def hideWaitingCursor (s : GmicProcessor) : GmicProcessor × List Effect :=
  setWaiting { s with timerActive := false } false

/-- The member `showWaitingCursor`, the slot of the timer. -/
def showWaitingCursor (s : GmicProcessor) : GmicProcessor × List Effect :=
  match s._filterThread with
  | some _ => setWaiting s true
  | none => (s, [])

/-- The single-shot `_waitingCursorTimer` fires: nothing when it is not armed. -/
def timerTimeout (s : GmicProcessor) : GmicProcessor × List Effect :=
  if s.timerActive then showWaitingCursor { s with timerActive := false } else (s, [])

/-- The member `abortCurrentFilterThread`. -/
def abortCurrentFilterThread (s : GmicProcessor) : GmicProcessor × List Effect :=
  match s._filterThread with
  | none => (s, [])
  | some p =>
    let s1 := updateThread s p (fun t => { t with finishedSlots := [] })
    let s2 := updateThread s1 p
      (fun t => { t with finishedSlots := t.finishedSlots ++ [Slot.onAbortedThreadFinished] })
    let s3 := { s2 with _unfinishedAbortedThreads := s2._unfinishedAbortedThreads ++ [p] }
    let s4 := updateThread s3 p (fun t => { t with abortRequested := true })
    let w := setWaiting { s4 with _filterThread := none, timerActive := false } false
    (w.1, [Effect.abortGmic p] ++ w.2)

/-- The member `cancel`. -/
def cancel (s : GmicProcessor) : GmicProcessor × List Effect :=
  abortCurrentFilterThread s

/-- The member `init`. -/
def init (s : GmicProcessor) : GmicProcessor × List Effect :=
  let r := abortCurrentFilterThread s
  ({ r.1 with _gmicImages := [] }, r.2)

/-- The environment string built by `execute`. -/
def environment (c : FilterContext) : String :=
  let env := "_input_layers=" ++ toString c.inputOutputState.inputMode
  let env := env ++ " _output_mode=" ++ toString c.inputOutputState.outputMode
  let env := env ++ " _output_messages=" ++ toString c.outputMessageMode
  let env := env ++ " _preview_mode=" ++ toString c.inputOutputState.previewMode
  if c.requestType = RequestType.PreviewProcessing
      ∨ c.requestType = RequestType.SynchronousPreviewProcessing then
    env ++ " _preview_width=" ++ toString c.previewWidth
      ++ " _preview_height=" ++ toString c.previewHeight
      ++ " _preview_timeout=" ++ toString c.previewTimeout
  else env

/-- The member `manageSynchonousRunner`. -/
def manageSynchonousRunner (ext : Externals) (s : GmicProcessor) (runner : FilterSyncRunner) :
    GmicProcessor × List Effect :=
  if runner.failed then
    let s1 := { s with _gmicStatus := [], _gmicImages := [] }
    let h := hideWaitingCursor s1
    (h.1, h.2 ++ [Effect.previewCommandFailed runner.errorMessage])
  else
    let images := runner.images.map ext.gmic_qt_apply_color_profile
    let s1 := { s with
      _gmicStatus := runner.gmicStatus
      _parametersVisibilityStates := runner.parametersVisibilityStates
      _gmicImages := images
      _previewImage := ext.buildPreviewImage images s._previewImage
        s._filterContext.inputOutputState.previewMode s._filterContext.previewWidth
        s._filterContext.previewHeight }
    let h := hideWaitingCursor s1
    (h.1, h.2 ++ [Effect.previewImageAvailable])

/-- The member `execute`. `none` only when recording the duration of a
synchronous preview fails (see `evictWhileFull`). -/
def execute (ext : Externals) (s : GmicProcessor) (inp : ExecuteInput) :
    Option (GmicProcessor × List Effect) :=
  let c := s._filterContext
  let isPreview : Bool := c.requestType = RequestType.PreviewProcessing
    ∨ c.requestType = RequestType.SynchronousPreviewProcessing
  let imageNames :=
    if isPreview then ext.updateImageNames c inp.extentWidth inp.extentHeight inp.imageNames
    else inp.imageNames
  let s := { s with _gmicImages := inp.images, timerActive := true }
  let env := environment c
  match c.requestType with
  | RequestType.SynchronousPreviewProcessing =>
    -- the runner takes the working set, the coordinator keeps the runner's empty list
    let s := { s with _gmicImages := [], _previewRandomSeed := inp.rand }
    let m := manageSynchonousRunner ext s inp.runner
    match recordPreviewFilterExecutionDurationMS ext.KEYPOINTS_INTERACTIVE_AVERAGING_COUNT
        m.1._lastFilterPreviewExecutionDurations inp.elapsed with
    | none => none
    | some w =>
      some ({ m.1 with _lastFilterPreviewExecutionDurations := w },
        [Effect.srandFresh, Effect.runnerRun c.filterCommand c.filterArguments env] ++ m.2)
  | RequestType.PreviewProcessing =>
    let p := s.threads.length
    let t := FilterThread.create c.filterCommand c.filterArguments env c.outputMessageMode
    let t := { t with images := s._gmicImages, imageNames := imageNames, logSuffix := "preview",
                      finishedSlots := t.finishedSlots ++ [Slot.onPreviewThreadFinished],
                      running := true }
    some ({ s with threads := s.threads ++ [t], _filterThread := some p, _gmicImages := [],
                   _previewRandomSeed := inp.rand },
      [Effect.srandFresh, Effect.threadStart p])
  | RequestType.FullImageProcessing =>
    let p := s.threads.length
    let t := FilterThread.create c.filterCommand c.filterArguments env c.outputMessageMode
    let t := { t with images := s._gmicImages, imageNames := imageNames, logSuffix := "apply",
                      finishedSlots := t.finishedSlots ++ [Slot.onApplyThreadFinished],
                      running := true }
    some ({ s with threads := s.threads ++ [t], _filterThread := some p, _gmicImages := [],
                   _lastAppliedFilterHash := c.filterHash,
                   _lastAppliedFilterPath := c.filterFullPath,
                   _lastAppliedCommand := c.filterCommand,
                   _lastAppliedCommandArguments := c.filterArguments,
                   _lastAppliedCommandInOutState := c.inputOutputState },
      [Effect.srand s._previewRandomSeed, Effect.threadStart p])

/-- The text of the preview failure for an image with too many channels. -/
def previewSpectrumMessage (index spectrum : Nat) : String :=
  "Image #" ++ toString index ++ " returned by filter has " ++ toString spectrum
    ++ " channels (should be at most 4)"

/-- The text of the full-apply failure for an image with too many channels. -/
def applySpectrumMessage (index spectrum : Nat) : String :=
  "Image #" ++ toString index ++ " returned by filter has " ++ toString spectrum
    ++ " channels\n(should be at most 4)"

/-- The slot `onPreviewThreadFinished`; `elapsed` is
`(int)_filterExecutionTime.elapsed()`. `none` when the assertion on
`_filterThread` fails, when the pointer dangles, or when recording the
duration fails. -/
def onPreviewThreadFinished (ext : Externals) (s : GmicProcessor) (elapsed : Int) :
    Option (GmicProcessor × List Effect) :=
  match s._filterThread with
  | none => none
  | some p =>
    match s.threads[p]? with
    | none => none
    | some t =>
      if t.running then some (s, [])
      else if t.failed then
        let s1 := { s with _gmicStatus := [], _parametersVisibilityStates := [],
                           _gmicImages := [] }
        let s2 := updateThread s1 p (fun t => { t with deleteLaterCalled := true })
        let h := hideWaitingCursor { s2 with _filterThread := none }
        some (h.1, h.2 ++ [Effect.previewCommandFailed t.errorMessage])
      else
        let s1 := { s with _gmicStatus := t.gmicStatus,
                           _parametersVisibilityStates := t.parametersVisibilityStates,
                           _gmicImages := t.images }
        let s2 := updateThread s1 p (fun t => { t with images := [] })
        let bad := checkImageSpectrumAtMost4 s2._gmicImages
        let badSpectrumIndex := bad.getD 0
        let correctSpectrums := bad.isNone
        let s3 :=
          if correctSpectrums then
            let images := s2._gmicImages.map ext.gmic_qt_apply_color_profile
            { s2 with
              _gmicImages := images
              _previewImage := ext.buildPreviewImage images s2._previewImage
                s2._filterContext.inputOutputState.previewMode s2._filterContext.previewWidth
                s2._filterContext.previewHeight }
          else s2
        let s4 := updateThread s3 p (fun t => { t with deleteLaterCalled := true })
        let h := hideWaitingCursor { s4 with _filterThread := none }
        if correctSpectrums then
          match recordPreviewFilterExecutionDurationMS ext.KEYPOINTS_INTERACTIVE_AVERAGING_COUNT
              h.1._lastFilterPreviewExecutionDurations elapsed with
          | none => none
          | some w =>
            some ({ h.1 with _lastFilterPreviewExecutionDurations := w },
              h.2 ++ [Effect.previewImageAvailable])
        else
          some (h.1, h.2 ++ [Effect.previewCommandFailed
            (previewSpectrumMessage badSpectrumIndex (spectrumAt h.1._gmicImages badSpectrumIndex))])

/-- The slot `onApplyThreadFinished`. `none` when one of its two assertions
fails or the pointer dangles. The counter is a C++ `int`; the embedding covers
the executions in which it stays below `INT_MAX`. -/
def onApplyThreadFinished (ext : Externals) (s : GmicProcessor) :
    Option (GmicProcessor × List Effect) :=
  match s._filterThread with
  | none => none
  | some p =>
    match s.threads[p]? with
    | none => none
    | some t =>
      if t.abortRequested then none
      else if t.running then some (s, [])
      else
        let s1 := { s with _gmicStatus := t.gmicStatus,
                           _parametersVisibilityStates := t.parametersVisibilityStates }
        let h := hideWaitingCursor s1
        let s2 := h.1
        if t.failed then
          let s3 := { s2 with _lastAppliedFilterPath := "", _lastAppliedCommand := "",
                              _lastAppliedCommandArguments := "" }
          let s4 := updateThread s3 p (fun t => { t with deleteLaterCalled := true })
          some ({ s4 with _filterThread := none },
            h.2 ++ [Effect.fullImageProcessingFailed t.errorMessage])
        else
          let s3 := updateThread { s2 with _gmicImages := t.images } p
            (fun t => { t with images := s2._gmicImages })
          let bad := checkImageSpectrumAtMost4 s3._gmicImages
          let badSpectrumIndex := bad.getD 0
          let correctSpectrums := bad.isNone
          if !correctSpectrums then
            let s4 := { s3 with _lastAppliedFilterPath := "", _lastAppliedCommand := "",
                                _lastAppliedCommandArguments := "" }
            let s5 := updateThread s4 p (fun t => { t with deleteLaterCalled := true })
            some ({ s5 with _filterThread := none },
              h.2 ++ [Effect.fullImageProcessingFailed
                (applySpectrumMessage badSpectrumIndex
                  (spectrumAt s5._gmicImages badSpectrumIndex))])
          else
            let outputMode := s3._filterContext.inputOutputState.outputMode
            let s4 := { s3 with
              _gmicImages := ext.outputImagesBuffer s3._gmicImages t.imageNames outputMode
              _completeFullImageProcessingCount := s3._completeFullImageProcessingCount + 1 }
            let s5 := updateThread s4 p (fun t => { t with deleteLaterCalled := true })
            some ({ s5 with _filterThread := none,
                            _lastAppliedCommandGmicStatus := s5._gmicStatus },
              h.2 ++ (if ext.hostApplicationNameIsEmpty then [Effect.aboutToSendImagesToHost]
                      else [])
                ++ [Effect.gmic_qt_output_images s3._gmicImages t.imageNames outputMode,
                    Effect.layersExtentProxyClear, Effect.croppedActiveLayerProxyClear,
                    Effect.croppedImageListProxyClear, Effect.fullImageProcessingDone])

/-- The slot `onAbortedThreadFinished`; `sender` is
`dynamic_cast<FilterThread *>(sender())`, `none` for a null pointer. -/
def onAbortedThreadFinished (s : GmicProcessor) (sender : Option Nat) :
    GmicProcessor × List Effect :=
  let s1 :=
    match sender with
    | some p =>
      if p ∈ s._unfinishedAbortedThreads then
        updateThread { s with _unfinishedAbortedThreads := s._unfinishedAbortedThreads.erase p }
          p (fun t => { t with deleteLaterCalled := true })
      else s
    | none => s
  (s1, if s1._unfinishedAbortedThreads.isEmpty then [Effect.noMoreUnfinishedJobs] else [])

/-- The member `completedFullImageProcessingCount`. -/
def completedFullImageProcessingCount (s : GmicProcessor) : Int :=
  s._completeFullImageProcessingCount

/-- The member `setGmicStatusQuotedParameters`. -/
def setGmicStatusQuotedParameters (s : GmicProcessor) (v : String) : GmicProcessor :=
  { s with _gmicStatusQuotedParameters := v }

/-- The member `gmicStatus`. -/
def gmicStatus (s : GmicProcessor) : List String :=
  s._gmicStatus

/-- The member `parametersVisibilityStates`. -/
def parametersVisibilityStates (s : GmicProcessor) : List Int :=
  s._parametersVisibilityStates

/-- A value handed to `QSettings::setValue` (a `QVariant`). -/
inductive QVariant where
  | string (value : String)
  | stringList (value : List String)
  | int (value : Int)
deriving DecidableEq, Repr

/-- The key `QString("LastExecution/host_%1/<name>").arg(host)`. -/
def lastExecutionKey (host name : String) : String :=
  "LastExecution/host_" ++ host ++ "/" ++ name

/-- The member `saveSettings`: the calls of `settings.setValue` it makes, in
order, as pairs of key and value. `host` is `GmicQt::HostApplicationShortname`,
declared outside `src/`. -/
def saveSettings (host : String) (s : GmicProcessor) : List (String × QVariant) :=
  if s._lastAppliedCommand = "" then
    [(lastExecutionKey host "FilterHash", QVariant.string ""),
     (lastExecutionKey host "FilterPath", QVariant.string ""),
     (lastExecutionKey host "Command", QVariant.string ""),
     (lastExecutionKey host "Arguments", QVariant.string ""),
     (lastExecutionKey host "GmicStatus", QVariant.stringList []),
     (lastExecutionKey host "QuotedParameters", QVariant.string ""),
     (lastExecutionKey host "InputMode", QVariant.int 0),
     (lastExecutionKey host "OutputMode", QVariant.int 0),
     (lastExecutionKey host "PreviewMode", QVariant.int 0)]
  else
    [(lastExecutionKey host "FilterPath", QVariant.string s._lastAppliedFilterPath),
     (lastExecutionKey host "FilterHash", QVariant.string s._lastAppliedFilterHash),
     (lastExecutionKey host "Command", QVariant.string s._lastAppliedCommand),
     (lastExecutionKey host "Arguments", QVariant.string s._lastAppliedCommandArguments),
     (lastExecutionKey host "GmicStatus", QVariant.stringList s._lastAppliedCommandGmicStatus),
     (lastExecutionKey host "QuotedParameters", QVariant.string s._gmicStatusQuotedParameters),
     (lastExecutionKey host "InputMode", QVariant.int s._lastAppliedCommandInOutState.inputMode),
     (lastExecutionKey host "OutputMode",
       QVariant.int s._lastAppliedCommandInOutState.outputMode),
     (lastExecutionKey host "PreviewMode",
       QVariant.int s._lastAppliedCommandInOutState.previewMode)]

/-- The nine writes of an empty Last-Applied Record. -/
def emptyLastExecution (host : String) : List (String × QVariant) :=
  [(lastExecutionKey host "FilterHash", QVariant.string ""),
   (lastExecutionKey host "FilterPath", QVariant.string ""),
   (lastExecutionKey host "Command", QVariant.string ""),
   (lastExecutionKey host "Arguments", QVariant.string ""),
   (lastExecutionKey host "GmicStatus", QVariant.stringList []),
   (lastExecutionKey host "QuotedParameters", QVariant.string ""),
   (lastExecutionKey host "InputMode", QVariant.int 0),
   (lastExecutionKey host "OutputMode", QVariant.int 0),
   (lastExecutionKey host "PreviewMode", QVariant.int 0)]

/-- The engine side: the `run()` of thread `p` returns, leaving its outcome in
the thread object. -/
def threadReturns (s : GmicProcessor) (p : Nat) (o : ThreadOutcome) : GmicProcessor :=
  updateThread s p (fun t => { t with
    running := false, failed := o.failed, errorMessage := o.errorMessage,
    gmicStatus := o.gmicStatus, parametersVisibilityStates := o.parametersVisibilityStates,
    images := o.images, imageNames := o.imageNames })

/-! ## Executions -/

/-- What can happen to a coordinator: a call of one of its public members, the
delivery of a `finished()` signal to one of its slots, the timer firing, or a
worker thread returning from the engine. -/
inductive Event where
  | setContext (context : FilterContext)
  | execute (inp : ExecuteInput)
  | cancel
  | init
  | threadReturns (thread : Nat) (outcome : ThreadOutcome)
  | previewThreadFinished (elapsed : Int)
  | applyThreadFinished
  | abortedThreadFinished (sender : Option Nat)
  | timerTimeout
deriving DecidableEq, Repr

/-- One event; `none` when the called member fails. -/
def step (ext : Externals) (s : GmicProcessor) : Event → Option (GmicProcessor × List Effect)
  | .setContext context => some (setContext s context, [])
  | .execute inp => execute ext s inp
  | .cancel => some (cancel s)
  | .init => some (init s)
  | .threadReturns p o => some (threadReturns s p o, [])
  | .previewThreadFinished elapsed => onPreviewThreadFinished ext s elapsed
  | .applyThreadFinished => onApplyThreadFinished ext s
  | .abortedThreadFinished sender => some (onAbortedThreadFinished s sender)
  | .timerTimeout => some (timerTimeout s)

/-- A sequence of events, with the effects in order. -/
def run (ext : Externals) (s : GmicProcessor) : List Event → Option (GmicProcessor × List Effect)
  | [] => some (s, [])
  | e :: rest =>
    match step ext s e with
    | none => none
    | some (s1, effects1) =>
      match run ext s1 rest with
      | none => none
      | some (s2, effects2) => some (s2, effects1 ++ effects2)

/-- A handle is live when it has been created and `deleteLater()` has not been
called on it. -/
def live (s : GmicProcessor) (p : Nat) : Prop :=
  ∃ t, s.threads[p]? = some t ∧ t.deleteLaterCalled = false

/-- The handle is referenced by exactly one of the active slot and the retiring
set. -/
def ownedOnce (s : GmicProcessor) (p : Nat) : Prop :=
  (s._filterThread = some p ∧ p ∉ s._unfinishedAbortedThreads)
    ∨ (s._filterThread ≠ some p ∧ p ∈ s._unfinishedAbortedThreads)

/-- The event is a call of `execute` for a background request while a job
occupies the active slot. -/
def overwritesActive (s : GmicProcessor) : Event → Bool
  | .execute _ =>
    s._filterThread.isSome
      && decide (s._filterContext.requestType ≠ RequestType.SynchronousPreviewProcessing)
  | _ => false

/-- No event of the sequence is a background `execute` over an occupied active
slot. -/
def neverOverwritesActive (ext : Externals) (s : GmicProcessor) : List Event → Bool
  | [] => true
  | e :: rest =>
    !overwritesActive s e &&
      (match step ext s e with
       | none => true
       | some (s1, _) => neverOverwritesActive ext s1 rest)

/-- The event is a call of `execute` for a preview request. -/
def isPreviewDispatch (s : GmicProcessor) : Event → Bool
  | .execute _ => decide (s._filterContext.requestType ≠ RequestType.FullImageProcessing)
  | _ => false

/-- No event of the sequence is a preview dispatch. -/
def noPreviewDispatch (ext : Externals) (s : GmicProcessor) : List Event → Bool
  | [] => true
  | e :: rest =>
    !isPreviewDispatch s e &&
      (match step ext s e with
       | none => true
       | some (s1, _) => noPreviewDispatch ext s1 rest)

/-- The event is a call of `execute` for a full-apply request. -/
def isFullApplyDispatch (s : GmicProcessor) : Event → Bool
  | .execute _ => decide (s._filterContext.requestType = RequestType.FullImageProcessing)
  | _ => false

/-- No event of the sequence is a full-apply dispatch. -/
def noFullApplyDispatch (ext : Externals) (s : GmicProcessor) : List Event → Bool
  | [] => true
  | e :: rest =>
    !isFullApplyDispatch s e &&
      (match step ext s e with
       | none => true
       | some (s1, _) => noFullApplyDispatch ext s1 rest)

/-- The busy indicator is shown only while a job occupies the active slot. -/
def busyOnlyWhileActive (s : GmicProcessor) : Prop :=
  s.overrideCursorWaiting = true → s._filterThread ≠ none

/-- How one operation treats the busy indicator: if it is shown afterwards, a
job occupies the active slot or nothing changed; and when a job leaves the
active slot the timer is stopped and the indicator hidden. -/
def busyStep (s s1 : GmicProcessor) : Prop :=
  (s1.overrideCursorWaiting = true →
      s1._filterThread ≠ none
        ∨ (s.overrideCursorWaiting = true ∧ s1._filterThread = s._filterThread))
    ∧ (s._filterThread ≠ none → s1._filterThread = none →
        s1.timerActive = false ∧ s1.overrideCursorWaiting = false)

/-- How one operation can change who owns the job handles: not at all, by
creating a handle into an empty active slot, by moving the active handle to the
retiring set, or by destroying the active handle or a retiring one. -/
inductive OwnershipStep (s s1 : GmicProcessor) : Prop where
  | same (hactive : s1._filterThread = s._filterThread)
      (hretiring : s1._unfinishedAbortedThreads = s._unfinishedAbortedThreads)
      (hlive : ∀ q, live s1 q ↔ live s q)
  | create (hempty : s._filterThread = none)
      (hactive : s1._filterThread = some s.threads.length)
      (hretiring : s1._unfinishedAbortedThreads = s._unfinishedAbortedThreads)
      (hlive : ∀ q, live s1 q ↔ (live s q ∨ q = s.threads.length))
  | retire (h : Nat) (hheld : s._filterThread = some h)
      (hactive : s1._filterThread = none)
      (hretiring : s1._unfinishedAbortedThreads = s._unfinishedAbortedThreads ++ [h])
      (hlive : ∀ q, live s1 q ↔ live s q)
  | destroyActive (h : Nat) (hheld : s._filterThread = some h)
      (hactive : s1._filterThread = none)
      (hretiring : s1._unfinishedAbortedThreads = s._unfinishedAbortedThreads)
      (hlive : ∀ q, live s1 q ↔ (live s q ∧ q ≠ h))
  | destroyRetiring (h : Nat) (hheld : h ∈ s._unfinishedAbortedThreads)
      (hactive : s1._filterThread = s._filterThread)
      (hretiring : s1._unfinishedAbortedThreads = s._unfinishedAbortedThreads.erase h)
      (hlive : ∀ q, live s1 q ↔ (live s q ∧ q ≠ h))

/-- The ownership invariant with what makes it inductive: every live handle is
referenced exactly once, the retiring set has no duplicates, and only live
handles are referenced. -/
def ownershipInvariant (s : GmicProcessor) : Prop :=
  (∀ p, live s p → ownedOnce s p)
    ∧ s._unfinishedAbortedThreads.Nodup
    ∧ (∀ p, s._filterThread = some p → live s p)
    ∧ (∀ p, p ∈ s._unfinishedAbortedThreads → live s p)

/-! ## Sample data -/

/-- An instance of the external constants: capacity 4, no colour profile, the
preview raster is the first output image. -/
def sampleExternals : Externals :=
  { KEYPOINTS_INTERACTIVE_AVERAGING_COUNT := 4, WAITING_CURSOR_DELAY := 200,
    hostApplicationNameIsEmpty := false, gmic_qt_apply_color_profile := id,
    buildPreviewImage := fun images preview _ _ _ => images.headD preview,
    outputImagesBuffer := fun images _ _ => images,
    updateImageNames := fun _ _ _ names => names }

/-- A request descriptor of the given kind. -/
def sampleContext (kind : RequestType) : FilterContext :=
  { requestType := kind, inputOutputState := ⟨1, 0, 0⟩, outputMessageMode := 0,
    previewWidth := 64, previewHeight := 48, previewTimeout := 16,
    filterCommand := "blur", filterArguments := "3", filterHash := "h1",
    filterFullPath := "/Blur" }

/-- An image with the given number of channels. -/
def sampleImage (spectrum : Nat) : CImg := ⟨2, 2, 1, spectrum, []⟩

/-- Answers of the collaborators for one `execute`: a one-image working set and
the given random value. -/
def sampleInput (rand : Nat) : ExecuteInput :=
  { images := [sampleImage 3], imageNames := ["layer"], extentWidth := 2, extentHeight := 2,
    rand := rand, runner := ⟨false, "", ["1"], [1], [sampleImage 3]⟩, elapsed := 12 }

/-- A freshly constructed coordinator with the given descriptor. -/
def sampleProcessor (kind : RequestType) : GmicProcessor :=
  create (sampleContext kind) ⟨100, 100, 100⟩ 7

/-- A successful engine outcome with the given output images. -/
def sampleOutcome (images : List CImg) : ThreadOutcome :=
  { failed := false, errorMessage := "", gmicStatus := ["5"], parametersVisibilityStates := [2],
    images := images, imageNames := ["out"] }

/-- A failed engine outcome. -/
def sampleFailure : ThreadOutcome :=
  { failed := true, errorMessage := "unknown command", gmicStatus := [],
    parametersVisibilityStates := [], images := [], imageNames := [] }

/-- The state (and effects) a fresh coordinator of the given kind reaches
through the events; the fresh coordinator itself if a member fails. -/
def sampleRun (kind : RequestType) (events : List Event) : GmicProcessor × List Effect :=
  (run sampleExternals (sampleProcessor kind) events).getD (sampleProcessor kind, [])

/-- The state and effects the given coordinator reaches through the events;
the coordinator itself if a member fails. -/
def runFrom (s : GmicProcessor) (events : List Event) : GmicProcessor × List Effect :=
  (run sampleExternals s events).getD (s, [])

/-- A coordinator whose only job, of the given kind, has been dispatched and is
still running. -/
def sampleActive (kind : RequestType) : GmicProcessor :=
  (sampleRun kind [Event.execute (sampleInput 9)]).1

/-- A coordinator whose only job, of the given kind, has returned from the
engine with the given outcome and has not been processed yet. -/
def sampleFinished (kind : RequestType) (outcome : ThreadOutcome) : GmicProcessor :=
  (sampleRun kind [Event.execute (sampleInput 9), Event.threadReturns 0 outcome]).1

/-- Answers of the collaborators for one `execute` whose foreground run leaves
the given runner. -/
def sampleInputWith (runner : FilterSyncRunner) : ExecuteInput :=
  { sampleInput 9 with runner := runner }

/-- The thread object a pointer refers to (a fresh one when it dangles). -/
def threadAt (s : GmicProcessor) (p : Nat) : FilterThread :=
  s.threads.getD p (FilterThread.create "" "" "" 0)

end GmicProcessor

/-! ## Auxiliary lemmas -/

theorem evictWhileFull_isSome (K : Nat) (hK : 0 < K) (l : List Int) :
    ∃ w, evictWhileFull K l = some w := by
  induction l with
  | nil => exact ⟨[], by simp [evictWhileFull]; omega⟩
  | cons d rest ih =>
    unfold evictWhileFull
    split
    · exact ih
    · exact ⟨_, rfl⟩

theorem record_isSome (K : Nat) (hK : 0 < K) (w : List Int) (d : Int) :
    ∃ w1, recordPreviewFilterExecutionDurationMS K w d = some w1 :=
  evictWhileFull_isSome K hK _

namespace GmicProcessor

@[simp] theorem updateThread_filterThread (s : GmicProcessor) (p : Nat)
    (f : FilterThread → FilterThread) : (updateThread s p f)._filterThread = s._filterThread := by
  unfold updateThread; split <;> rfl

@[simp] theorem updateThread_unfinished (s : GmicProcessor) (p : Nat)
    (f : FilterThread → FilterThread) :
    (updateThread s p f)._unfinishedAbortedThreads = s._unfinishedAbortedThreads := by
  unfold updateThread; split <;> rfl

@[simp] theorem updateThread_durations (s : GmicProcessor) (p : Nat)
    (f : FilterThread → FilterThread) :
    (updateThread s p f)._lastFilterPreviewExecutionDurations
      = s._lastFilterPreviewExecutionDurations := by
  unfold updateThread; split <;> rfl

@[simp] theorem updateThread_gmicImages (s : GmicProcessor) (p : Nat)
    (f : FilterThread → FilterThread) : (updateThread s p f)._gmicImages = s._gmicImages := by
  unfold updateThread; split <;> rfl

@[simp] theorem updateThread_seed (s : GmicProcessor) (p : Nat)
    (f : FilterThread → FilterThread) :
    (updateThread s p f)._previewRandomSeed = s._previewRandomSeed := by
  unfold updateThread; split <;> rfl

@[simp] theorem updateThread_count (s : GmicProcessor) (p : Nat)
    (f : FilterThread → FilterThread) :
    (updateThread s p f)._completeFullImageProcessingCount
      = s._completeFullImageProcessingCount := by
  unfold updateThread; split <;> rfl

@[simp] theorem updateThread_context (s : GmicProcessor) (p : Nat)
    (f : FilterThread → FilterThread) :
    (updateThread s p f)._filterContext = s._filterContext := by
  unfold updateThread; split <;> rfl

@[simp] theorem updateThread_gmicStatus (s : GmicProcessor) (p : Nat)
    (f : FilterThread → FilterThread) : (updateThread s p f)._gmicStatus = s._gmicStatus := by
  unfold updateThread; split <;> rfl

@[simp] theorem updateThread_hash (s : GmicProcessor) (p : Nat)
    (f : FilterThread → FilterThread) :
    (updateThread s p f)._lastAppliedFilterHash = s._lastAppliedFilterHash := by
  unfold updateThread; split <;> rfl

@[simp] theorem updateThread_path (s : GmicProcessor) (p : Nat)
    (f : FilterThread → FilterThread) :
    (updateThread s p f)._lastAppliedFilterPath = s._lastAppliedFilterPath := by
  unfold updateThread; split <;> rfl

@[simp] theorem updateThread_command (s : GmicProcessor) (p : Nat)
    (f : FilterThread → FilterThread) :
    (updateThread s p f)._lastAppliedCommand = s._lastAppliedCommand := by
  unfold updateThread; split <;> rfl

@[simp] theorem updateThread_arguments (s : GmicProcessor) (p : Nat)
    (f : FilterThread → FilterThread) :
    (updateThread s p f)._lastAppliedCommandArguments = s._lastAppliedCommandArguments := by
  unfold updateThread; split <;> rfl

@[simp] theorem updateThread_inOut (s : GmicProcessor) (p : Nat)
    (f : FilterThread → FilterThread) :
    (updateThread s p f)._lastAppliedCommandInOutState = s._lastAppliedCommandInOutState := by
  unfold updateThread; split <;> rfl

@[simp] theorem updateThread_timer (s : GmicProcessor) (p : Nat)
    (f : FilterThread → FilterThread) : (updateThread s p f).timerActive = s.timerActive := by
  unfold updateThread; split <;> rfl

@[simp] theorem updateThread_cursor (s : GmicProcessor) (p : Nat)
    (f : FilterThread → FilterThread) :
    (updateThread s p f).overrideCursorWaiting = s.overrideCursorWaiting := by
  unfold updateThread; split <;> rfl

theorem updateThread_threads_length (s : GmicProcessor) (p : Nat)
    (f : FilterThread → FilterThread) : (updateThread s p f).threads.length = s.threads.length := by
  unfold updateThread; split <;> simp

theorem updateThread_get_self (s : GmicProcessor) (p : Nat) (f : FilterThread → FilterThread)
    (t : FilterThread) (h : s.threads[p]? = some t) :
    (updateThread s p f).threads[p]? = some (f t) := by
  have hlt : p < s.threads.length := by
    rcases Nat.lt_or_ge p s.threads.length with h1 | h1
    · exact h1
    · rw [List.getElem?_eq_none h1] at h; cases h
  unfold updateThread; rw [h]; simp [List.getElem?_set, hlt]

theorem updateThread_get_other (s : GmicProcessor) (p q : Nat) (f : FilterThread → FilterThread)
    (h : p ≠ q) : (updateThread s p f).threads[q]? = s.threads[q]? := by
  unfold updateThread; split
  · simp [List.getElem?_set, h]
  · rfl

/-! ## Outcome notifications -/

/-- C1: a completion of a job that was not cancelled and is no longer running
emits exactly one of the four outcome notifications, on the interactive-preview
slot, on the full-apply slot, in `manageSynchonousRunner` and in a whole
synchronous `execute`; `cancel` and the retirement slot emit none of them. -/
theorem outcome_notification_exactly_one (ext : Externals) (s : GmicProcessor) (p : Nat)
    (t : FilterThread) (elapsed : Int) (runner : FilterSyncRunner) (inp : ExecuteInput)
    (s0 : GmicProcessor) (sender : Option Nat)
    (hK : 0 < ext.KEYPOINTS_INTERACTIVE_AVERAGING_COUNT)
    (hp : s._filterThread = some p) (ht : s.threads[p]? = some t)
    (hrun : t.running = false) (hc : t.abortRequested = false) :
    (∃ r, onPreviewThreadFinished ext s elapsed = some r ∧ r.2.countP Effect.isOutcome = 1)
    ∧ (∃ r, onApplyThreadFinished ext s = some r ∧ r.2.countP Effect.isOutcome = 1)
    ∧ (manageSynchonousRunner ext s0 runner).2.countP Effect.isOutcome = 1
    ∧ (s0._filterContext.requestType = RequestType.SynchronousPreviewProcessing →
        ∃ r, execute ext s0 inp = some r ∧ r.2.countP Effect.isOutcome = 1)
    ∧ (cancel s0).2.countP Effect.isOutcome = 0
    ∧ (abortCurrentFilterThread s0).2.countP Effect.isOutcome = 0
    ∧ (onAbortedThreadFinished s0 sender).2.countP Effect.isOutcome = 0 := by
  have hsync : ∀ (s1 : GmicProcessor) (r1 : FilterSyncRunner),
      (manageSynchonousRunner ext s1 r1).2.countP Effect.isOutcome = 1 := by
    intro s1 r1
    unfold manageSynchonousRunner
    split <;> simp [hideWaitingCursor, List.countP_cons, Effect.isOutcome]
  have habort : (abortCurrentFilterThread s0).2.countP Effect.isOutcome = 0 := by
    unfold abortCurrentFilterThread
    split <;> simp [List.countP_cons, Effect.isOutcome]
  refine ⟨?_, ?_, hsync s0 runner, ?_, habort, habort, ?_⟩
  · simp only [onPreviewThreadFinished, hp, ht, hrun]
    by_cases hf : t.failed = true
    · simp [hf, hideWaitingCursor, List.countP_cons, Effect.isOutcome]
    · cases hb : checkImageSpectrumAtMost4 t.images with
      | none =>
        obtain ⟨w, hw⟩ := record_isSome _ hK s._lastFilterPreviewExecutionDurations elapsed
        simp [hf, hb, hideWaitingCursor, hw, List.countP_cons, Effect.isOutcome]
      | some i =>
        simp [hf, hb, hideWaitingCursor, List.countP_cons, Effect.isOutcome]
  · simp only [onApplyThreadFinished, hp, ht, hrun, hc]
    by_cases hf : t.failed = true
    · simp [hf, hideWaitingCursor, List.countP_cons, Effect.isOutcome]
    · cases hb : checkImageSpectrumAtMost4 t.images with
      | none =>
        cases hh : ext.hostApplicationNameIsEmpty <;>
          simp [hf, hb, hh, hideWaitingCursor, List.countP_cons, Effect.isOutcome]
      | some i =>
        simp [hf, hb, hideWaitingCursor, List.countP_cons, Effect.isOutcome]
  · intro hk
    obtain ⟨w, hw⟩ := record_isSome _ hK
      (manageSynchonousRunner ext
        { s0 with _gmicImages := [], timerActive := true,
                  _previewRandomSeed := inp.rand } inp.runner).1._lastFilterPreviewExecutionDurations
      inp.elapsed
    have h1 := hsync { s0 with _gmicImages := [], timerActive := true,
                               _previewRandomSeed := inp.rand } inp.runner
    simp only [execute, hk]
    simp only [hw]
    refine ⟨_, rfl, ?_⟩
    simp [List.countP_cons, Effect.isOutcome]
    simpa using h1
  · unfold onAbortedThreadFinished
    simp only
    split <;> simp [List.countP_cons, Effect.isOutcome]

/-- Instance of C1: a finished, valid interactive preview and a finished
full-apply job each emit one notification. -/
theorem outcome_notification_exactly_one_witness :
    (0 < sampleExternals.KEYPOINTS_INTERACTIVE_AVERAGING_COUNT
      ∧ (sampleFinished RequestType.FullImageProcessing
          (sampleOutcome [sampleImage 3]))._filterThread = some 0
      ∧ (threadAt (sampleFinished RequestType.FullImageProcessing
          (sampleOutcome [sampleImage 3])) 0).running = false
      ∧ (threadAt (sampleFinished RequestType.FullImageProcessing
          (sampleOutcome [sampleImage 3])) 0).abortRequested = false)
    ∧ (∃ r, onPreviewThreadFinished sampleExternals
          (sampleFinished RequestType.FullImageProcessing (sampleOutcome [sampleImage 3])) 12
            = some r ∧ r.2.countP Effect.isOutcome = 1)
    ∧ (∃ r, onApplyThreadFinished sampleExternals
          (sampleFinished RequestType.FullImageProcessing (sampleOutcome [sampleImage 3]))
            = some r ∧ r.2.countP Effect.isOutcome = 1) :=
  ⟨⟨by decide, rfl, rfl, rfl⟩,
    (outcome_notification_exactly_one sampleExternals
      (sampleFinished RequestType.FullImageProcessing (sampleOutcome [sampleImage 3])) 0
      (threadAt (sampleFinished RequestType.FullImageProcessing (sampleOutcome [sampleImage 3])) 0)
      12 (sampleInput 1).runner (sampleInput 1) (sampleProcessor RequestType.PreviewProcessing)
      none (by decide) rfl rfl rfl rfl).1,
    (outcome_notification_exactly_one sampleExternals
      (sampleFinished RequestType.FullImageProcessing (sampleOutcome [sampleImage 3])) 0
      (threadAt (sampleFinished RequestType.FullImageProcessing (sampleOutcome [sampleImage 3])) 0)
      12 (sampleInput 1).runner (sampleInput 1) (sampleProcessor RequestType.PreviewProcessing)
      none (by decide) rfl rfl rfl rfl).2.1⟩

/-! ## Cancellation -/

/-- What `abortCurrentFilterThread` does to a state with active handle `h`. -/
theorem abort_active (s : GmicProcessor) (h : Nat) (hh : s._filterThread = some h) :
    (abortCurrentFilterThread s).1._filterThread = none
    ∧ (abortCurrentFilterThread s).1._unfinishedAbortedThreads
        = s._unfinishedAbortedThreads ++ [h]
    ∧ Effect.abortGmic h ∈ (abortCurrentFilterThread s).2
    ∧ (∀ t, s.threads[h]? = some t →
        (abortCurrentFilterThread s).1.threads[h]? = some { t with
          finishedSlots := [Slot.onAbortedThreadFinished], abortRequested := true })
    ∧ (abortCurrentFilterThread s).1.timerActive = false
    ∧ (abortCurrentFilterThread s).1.overrideCursorWaiting = false
    ∧ Effect.setWaiting false ∈ (abortCurrentFilterThread s).2
    ∧ (abortCurrentFilterThread s).2.countP Effect.isOutcome = 0 := by
  refine ⟨?_, ?_, ?_, ?_, ?_, ?_, ?_, ?_⟩
  · simp [abortCurrentFilterThread, hh]
  · simp [abortCurrentFilterThread, hh]
  · simp [abortCurrentFilterThread, hh]
  · intro t ht
    have hlt : h < s.threads.length := by
      rcases Nat.lt_or_ge h s.threads.length with h1 | h1
      · exact h1
      · rw [List.getElem?_eq_none h1] at ht; cases ht
    simp [abortCurrentFilterThread, hh, updateThread, ht, List.getElem?_set, hlt]
  · simp [abortCurrentFilterThread, hh]
  · simp [abortCurrentFilterThread, hh]
  · simp [abortCurrentFilterThread, hh]
  · simp [abortCurrentFilterThread, hh, List.countP_cons, Effect.isOutcome]

/-- C2: `cancel()` with an empty active slot returns the state unchanged and
emits nothing; with active handle `h` it empties the active slot, appends `h`
to the retiring set, asks `h` to stop, leaves `finished()` of `h` connected to
the retirement slot only, stops the timer and hides the busy indicator. -/
theorem cancel_spec (s : GmicProcessor) :
    (s._filterThread = none → cancel s = (s, []))
    ∧ (∀ h, s._filterThread = some h →
        (cancel s).1._filterThread = none
        ∧ (cancel s).1._unfinishedAbortedThreads = s._unfinishedAbortedThreads ++ [h]
        ∧ Effect.abortGmic h ∈ (cancel s).2
        ∧ (∀ t, s.threads[h]? = some t →
            (cancel s).1.threads[h]? = some { t with
              finishedSlots := [Slot.onAbortedThreadFinished], abortRequested := true })
        ∧ (cancel s).1.timerActive = false
        ∧ (cancel s).1.overrideCursorWaiting = false
        ∧ Effect.setWaiting false ∈ (cancel s).2
        ∧ (cancel s).2.countP Effect.isOutcome = 0) := by
  constructor
  · intro h
    simp [cancel, abortCurrentFilterThread, h]
  · intro h hh
    exact abort_active s h hh

/-- Instance of C2 on a coordinator with a running interactive preview. -/
theorem cancel_spec_witness :
    (sampleActive RequestType.PreviewProcessing)._filterThread = some 0
    ∧ (cancel (sampleActive RequestType.PreviewProcessing)).1._filterThread = none
    ∧ (cancel (sampleActive RequestType.PreviewProcessing)).1._unfinishedAbortedThreads
        = (sampleActive RequestType.PreviewProcessing)._unfinishedAbortedThreads ++ [0] :=
  ⟨rfl, ((cancel_spec (sampleActive RequestType.PreviewProcessing)).2 0 rfl).1,
    ((cancel_spec (sampleActive RequestType.PreviewProcessing)).2 0 rfl).2.1⟩

theorem abort_view (s : GmicProcessor) :
    (abortCurrentFilterThread s).1._filterThread = none
    ∧ (abortCurrentFilterThread s).1._filterContext = s._filterContext
    ∧ (abortCurrentFilterThread s).1.threads.length = s.threads.length
    ∧ (abortCurrentFilterThread s).1._previewRandomSeed = s._previewRandomSeed := by
  unfold abortCurrentFilterThread
  split
  · rename_i h; exact ⟨h, rfl, rfl, rfl⟩
  · simp [updateThread_threads_length]

/-- A background `execute` returns: it leaves the retiring set alone, appends
one running thread object to the heap and points the active slot to it. -/
theorem execute_background (ext : Externals) (s : GmicProcessor) (inp : ExecuteInput)
    (hk : s._filterContext.requestType ≠ RequestType.SynchronousPreviewProcessing) :
    ∃ r t, execute ext s inp = some r
      ∧ r.1._filterThread = some s.threads.length
      ∧ r.1._unfinishedAbortedThreads = s._unfinishedAbortedThreads
      ∧ r.1.threads = s.threads ++ [t]
      ∧ t.running = true ∧ t.deleteLaterCalled = false ∧ t.abortRequested = false := by
  cases hkind : s._filterContext.requestType with
  | SynchronousPreviewProcessing => exact absurd hkind hk
  | PreviewProcessing =>
    simp only [execute, hkind]
    exact ⟨_, _, rfl, rfl, rfl, rfl, rfl, rfl, rfl⟩
  | FullImageProcessing =>
    simp only [execute, hkind]
    exact ⟨_, _, rfl, rfl, rfl, rfl, rfl, rfl, rfl⟩

/-- The claim C3 fails as stated: `execute` over a running interactive preview
(handle 0) leaves the retiring set empty; handle 0 is in no collection. -/
theorem execute_does_not_cancel_counterexample :
    (sampleActive RequestType.PreviewProcessing)._filterThread = some 0
    ∧ (execute sampleExternals (sampleActive RequestType.PreviewProcessing) (sampleInput 10)).map
        (fun r => (r.1._filterThread, r.1._unfinishedAbortedThreads,
          (threadAt r.1 0).abortRequested, (threadAt r.1 0).deleteLaterCalled))
      = some (some 1, [], false, false) := by
  decide

/-- C3, amended: `execute` for a background request does not itself cancel an
active job `h`: it leaves the retiring set and `h` untouched and points the
active slot to the newly created handle. When `cancel()` or `init()` is called
first, `h` is in the retiring set after `execute`, asked to stop, routed to the
retirement slot and not destroyed, and the active slot holds the new handle. -/
theorem execute_retires_active_after_cancel (ext : Externals) (s : GmicProcessor)
    (inp : ExecuteInput) (h : Nat) (hh : s._filterThread = some h)
    (hk : s._filterContext.requestType ≠ RequestType.SynchronousPreviewProcessing) :
    (∃ r, execute ext s inp = some r
      ∧ r.1._filterThread = some s.threads.length
      ∧ r.1.threads.length = s.threads.length + 1
      ∧ r.1._unfinishedAbortedThreads = s._unfinishedAbortedThreads
      ∧ ∀ t, s.threads[h]? = some t → r.1.threads[h]? = some t)
    ∧ (∃ r, execute ext (cancel s).1 inp = some r
      ∧ r.1._filterThread = some s.threads.length
      ∧ r.1.threads.length = s.threads.length + 1
      ∧ r.1._unfinishedAbortedThreads = s._unfinishedAbortedThreads ++ [h]
      ∧ ∀ t, s.threads[h]? = some t → r.1.threads[h]? = some { t with
          finishedSlots := [Slot.onAbortedThreadFinished], abortRequested := true })
    ∧ (∃ r, execute ext (init s).1 inp = some r
      ∧ r.1._filterThread = some s.threads.length
      ∧ r.1.threads.length = s.threads.length + 1
      ∧ r.1._unfinishedAbortedThreads = s._unfinishedAbortedThreads ++ [h]
      ∧ ∀ t, s.threads[h]? = some t → r.1.threads[h]? = some { t with
          finishedSlots := [Slot.onAbortedThreadFinished], abortRequested := true }) := by
  have hget : ∀ (l : List FilterThread) (x t : FilterThread), l[h]? = some t →
      (l ++ [x])[h]? = some t := by
    intro l x t ht
    have hlt : h < l.length := by
      rcases Nat.lt_or_ge h l.length with h1 | h1
      · exact h1
      · rw [List.getElem?_eq_none h1] at ht; cases ht
    rw [List.getElem?_append_left hlt]; exact ht
  have hc := abort_active s h hh
  have hv := abort_view s
  refine ⟨?_, ?_, ?_⟩
  · obtain ⟨r, t, hr, h1, h2, h3, _⟩ := execute_background ext s inp hk
    refine ⟨r, hr, h1, by simp [h3], h2, ?_⟩
    intro t0 ht0
    rw [h3]; exact hget _ _ _ ht0
  · have hk1 : (cancel s).1._filterContext.requestType
        ≠ RequestType.SynchronousPreviewProcessing := by
      simpa [cancel, hv.2.1] using hk
    obtain ⟨r, t, hr, h1, h2, h3, _⟩ := execute_background ext (cancel s).1 inp hk1
    have hlen : (cancel s).1.threads.length = s.threads.length := hv.2.2.1
    refine ⟨r, hr, by rw [h1, hlen], by simp [h3, hlen], by rw [h2]; exact hc.2.1, ?_⟩
    intro t0 ht0
    rw [h3]; exact hget _ _ _ (hc.2.2.2.1 t0 ht0)
  · have hi : (init s).1 = { (cancel s).1 with _gmicImages := [] } := rfl
    have hk1 : (init s).1._filterContext.requestType
        ≠ RequestType.SynchronousPreviewProcessing := by
      rw [hi]; simpa [cancel, hv.2.1] using hk
    obtain ⟨r, t, hr, h1, h2, h3, _⟩ := execute_background ext (init s).1 inp hk1
    have hlen : (init s).1.threads.length = s.threads.length := hv.2.2.1
    have hret : (init s).1._unfinishedAbortedThreads = s._unfinishedAbortedThreads ++ [h] :=
      hc.2.1
    refine ⟨r, hr, by rw [h1, hlen], by simp [h3, hlen], by rw [h2, hret], ?_⟩
    intro t0 ht0
    rw [h3]; exact hget _ _ _ (hc.2.2.2.1 t0 ht0)

/-- Instance of the amended C3: cancelling a running preview and dispatching
again leaves handle 0 in the retiring set and handle 1 active. -/
theorem execute_retires_active_after_cancel_witness :
    ((sampleActive RequestType.PreviewProcessing)._filterThread = some 0
      ∧ (sampleActive RequestType.PreviewProcessing)._filterContext.requestType
          ≠ RequestType.SynchronousPreviewProcessing)
    ∧ (∃ r, execute sampleExternals (cancel (sampleActive RequestType.PreviewProcessing)).1
          (sampleInput 10) = some r
      ∧ r.1._filterThread = some (sampleActive RequestType.PreviewProcessing).threads.length
      ∧ r.1.threads.length = (sampleActive RequestType.PreviewProcessing).threads.length + 1
      ∧ r.1._unfinishedAbortedThreads
          = (sampleActive RequestType.PreviewProcessing)._unfinishedAbortedThreads ++ [0]
      ∧ ∀ t, (sampleActive RequestType.PreviewProcessing).threads[0]? = some t →
          r.1.threads[0]? = some { t with
            finishedSlots := [Slot.onAbortedThreadFinished], abortRequested := true }) :=
  ⟨⟨rfl, by decide⟩,
    (execute_retires_active_after_cancel sampleExternals
      (sampleActive RequestType.PreviewProcessing) (sampleInput 10) 0 rfl (by decide)).2.1⟩

/-! ## Retirement -/

/-- The claim C5 fails as stated: with an empty retiring set, a completion
event for a handle that is not in it emits the drained notification. -/
theorem stale_retirement_emits_counterexample :
    (sampleProcessor RequestType.PreviewProcessing)._unfinishedAbortedThreads = []
    ∧ onAbortedThreadFinished (sampleProcessor RequestType.PreviewProcessing) (some 3)
      = (sampleProcessor RequestType.PreviewProcessing, [Effect.noMoreUnfinishedJobs]) := by
  decide

/-- C5, amended: `onAbortedThreadFinished` emits `noMoreUnfinishedJobs`, once,
exactly when the retiring set is empty as it returns: when the call removed
the last handle, and also when the set was already empty. A completion for a
retiring handle removes its first occurrence; a completion for a handle that is
not in the retiring set changes no state, and emits nothing when the set is not
empty. -/
theorem drained_notification_spec (s : GmicProcessor) (sender : Option Nat) :
    (onAbortedThreadFinished s sender).2
        = (if (onAbortedThreadFinished s sender).1._unfinishedAbortedThreads = []
            then [Effect.noMoreUnfinishedJobs] else [])
    ∧ (∀ p, sender = some p → p ∈ s._unfinishedAbortedThreads →
        (onAbortedThreadFinished s sender).1._unfinishedAbortedThreads
            = s._unfinishedAbortedThreads.erase p
        ∧ (Effect.noMoreUnfinishedJobs ∈ (onAbortedThreadFinished s sender).2
            ↔ s._unfinishedAbortedThreads.erase p = []))
    ∧ ((∀ p, sender = some p → p ∉ s._unfinishedAbortedThreads) →
        (onAbortedThreadFinished s sender).1 = s
        ∧ (s._unfinishedAbortedThreads ≠ [] → (onAbortedThreadFinished s sender).2 = [])
        ∧ (s._unfinishedAbortedThreads = [] →
            (onAbortedThreadFinished s sender).2 = [Effect.noMoreUnfinishedJobs])) := by
  refine ⟨?_, ?_, ?_⟩
  · simp [onAbortedThreadFinished, List.isEmpty_iff]
  · intro p hp hmem
    subst hp
    simp [onAbortedThreadFinished, hmem, List.isEmpty_iff]
  · intro hnot
    cases sender with
    | none => simp [onAbortedThreadFinished, List.isEmpty_iff]
    | some p =>
      have := hnot p rfl
      simp [onAbortedThreadFinished, this, List.isEmpty_iff]

/-- Instance of the amended C5: the only retiring handle completes, the set
becomes empty and the notification is emitted. -/
theorem drained_notification_spec_witness :
    0 ∈ (cancel (sampleActive RequestType.PreviewProcessing)).1._unfinishedAbortedThreads
    ∧ (onAbortedThreadFinished (cancel (sampleActive RequestType.PreviewProcessing)).1
        (some 0)).1._unfinishedAbortedThreads
      = (cancel (sampleActive RequestType.PreviewProcessing)).1._unfinishedAbortedThreads.erase 0
    ∧ (Effect.noMoreUnfinishedJobs
        ∈ (onAbortedThreadFinished (cancel (sampleActive RequestType.PreviewProcessing)).1
            (some 0)).2
      ↔ (cancel (sampleActive RequestType.PreviewProcessing)).1._unfinishedAbortedThreads.erase 0
          = []) :=
  ⟨by decide,
    ((drained_notification_spec (cancel (sampleActive RequestType.PreviewProcessing)).1
      (some 0)).2.1 0 rfl (by decide)).1,
    ((drained_notification_spec (cancel (sampleActive RequestType.PreviewProcessing)).1
      (some 0)).2.1 0 rfl (by decide)).2⟩

/-! ## Seed replay -/

theorem onPreviewThreadFinished_seed (ext : Externals) (s : GmicProcessor) (elapsed : Int)
    (r : GmicProcessor × List Effect) (h : onPreviewThreadFinished ext s elapsed = some r) :
    r.1._previewRandomSeed = s._previewRandomSeed := by
  unfold onPreviewThreadFinished at h
  simp only [hideWaitingCursor] at h
  split at h
  · cases h
  · split at h
    · cases h
    · split at h
      · simp only [Option.some.injEq] at h; subst h; rfl
      · split at h
        · simp only [Option.some.injEq] at h; subst h; simp
        · split at h
          · split at h
            · cases h
            · simp only [Option.some.injEq] at h; subst h
              simp only [updateThread_seed]
          · simp only [Option.some.injEq] at h; subst h
            simp only [updateThread_seed]

theorem onApplyThreadFinished_seed (ext : Externals) (s : GmicProcessor)
    (r : GmicProcessor × List Effect) (h : onApplyThreadFinished ext s = some r) :
    r.1._previewRandomSeed = s._previewRandomSeed := by
  unfold onApplyThreadFinished at h
  simp only [hideWaitingCursor] at h
  split at h
  · cases h
  · split at h
    · cases h
    · split at h
      · cases h
      · split at h
        · simp only [Option.some.injEq] at h; subst h; rfl
        · split at h
          · simp only [Option.some.injEq] at h; subst h; simp
          · split at h
            · simp only [Option.some.injEq] at h; subst h; simp
            · simp only [Option.some.injEq] at h; subst h; simp

theorem onAbortedThreadFinished_seed (s : GmicProcessor) (sender : Option Nat) :
    (onAbortedThreadFinished s sender).1._previewRandomSeed = s._previewRandomSeed := by
  unfold onAbortedThreadFinished
  cases sender with
  | none => rfl
  | some p =>
    simp only
    split <;> simp

/-- A full-apply `execute` returns, replays the stored seed and keeps it. -/
theorem execute_full_seed (ext : Externals) (s : GmicProcessor) (inp : ExecuteInput)
    (hk : s._filterContext.requestType = RequestType.FullImageProcessing) :
    ∃ r, execute ext s inp = some r
      ∧ r.2 = [Effect.srand s._previewRandomSeed, Effect.threadStart s.threads.length]
      ∧ r.1._previewRandomSeed = s._previewRandomSeed := by
  simp only [execute, hk]
  exact ⟨_, rfl, rfl, rfl⟩

theorem step_seed (ext : Externals) (s : GmicProcessor) (e : Event)
    (r : GmicProcessor × List Effect) (h : step ext s e = some r)
    (hnp : isPreviewDispatch s e = false) :
    r.1._previewRandomSeed = s._previewRandomSeed := by
  cases e with
  | setContext c => simp [step, setContext] at h; rw [← h]
  | execute inp =>
    have hk : s._filterContext.requestType = RequestType.FullImageProcessing := by
      simpa [isPreviewDispatch] using hnp
    obtain ⟨r1, hr1, _, hs⟩ := execute_full_seed ext s inp hk
    simp only [step] at h
    rw [hr1] at h; cases h; exact hs
  | cancel => simp [step, cancel] at h; rw [← h]; exact (abort_view s).2.2.2
  | init => simp [step, init] at h; rw [← h]; exact (abort_view s).2.2.2
  | threadReturns p o => simp [step, threadReturns] at h; rw [← h]; simp
  | previewThreadFinished elapsed => exact onPreviewThreadFinished_seed ext s elapsed r h
  | applyThreadFinished => exact onApplyThreadFinished_seed ext s r h
  | abortedThreadFinished sender =>
    simp [step] at h; rw [← h]; exact onAbortedThreadFinished_seed s sender
  | timerTimeout =>
    simp [step, timerTimeout, showWaitingCursor] at h
    rw [← h]
    split
    · split <;> rfl
    · rfl

theorem run_seed (ext : Externals) (events : List Event) :
    ∀ (s : GmicProcessor) (r : GmicProcessor × List Effect), run ext s events = some r →
      noPreviewDispatch ext s events = true →
      r.1._previewRandomSeed = s._previewRandomSeed := by
  induction events with
  | nil =>
    intro s r h _
    simp [run] at h; rw [← h]
  | cons e rest ih =>
    intro s r h hno
    simp only [run] at h
    simp only [noPreviewDispatch, Bool.and_eq_true, Bool.not_eq_true'] at hno
    cases hstep : step ext s e with
    | none => simp [hstep] at h
    | some r1 =>
      obtain ⟨s1, eff1⟩ := r1
      simp only [hstep] at h hno
      cases hrest : run ext s1 rest with
      | none => simp [hrest] at h
      | some r2 =>
        obtain ⟨s2, eff2⟩ := r2
        simp only [hrest] at h
        cases h
        have h1 := step_seed ext s e (s1, eff1) hstep hno.1
        have h2 := ih s1 (s2, eff2) hrest hno.2
        simp only at h1 h2 ⊢
        rw [h2, h1]

/-- C6: when a preview dispatch (interactive or synchronous) stores the seed
`S = inp0.rand`, then after any sequence of events without a further preview
dispatch a full-apply `execute` returns, seeds the generator with `S` and with
nothing else, generates no fresh seed, and leaves the stored seed equal to
`S`. -/
theorem seed_replay (ext : Externals) (s0 : GmicProcessor) (inp0 : ExecuteInput)
    (r1 : GmicProcessor × List Effect) (events : List Event)
    (r2 : GmicProcessor × List Effect) (inp : ExecuteInput)
    (hprev : s0._filterContext.requestType ≠ RequestType.FullImageProcessing)
    (h1 : execute ext s0 inp0 = some r1)
    (hrun : run ext r1.1 events = some r2)
    (hno : noPreviewDispatch ext r1.1 events = true)
    (hfull : r2.1._filterContext.requestType = RequestType.FullImageProcessing) :
    r1.1._previewRandomSeed = inp0.rand
    ∧ Effect.srandFresh ∈ r1.2
    ∧ ∃ r, execute ext r2.1 inp = some r
      ∧ Effect.srand inp0.rand ∈ r.2
      ∧ (∀ seed, Effect.srand seed ∈ r.2 → seed = inp0.rand)
      ∧ Effect.srandFresh ∉ r.2
      ∧ r.1._previewRandomSeed = inp0.rand := by
  have hS : r1.1._previewRandomSeed = inp0.rand ∧ Effect.srandFresh ∈ r1.2 := by
    cases hkind : s0._filterContext.requestType with
    | FullImageProcessing => exact absurd hkind hprev
    | PreviewProcessing =>
      simp only [execute, hkind] at h1
      cases h1
      exact ⟨rfl, by simp⟩
    | SynchronousPreviewProcessing =>
      simp only [execute, hkind] at h1
      split at h1
      · cases h1
      · cases h1
        refine ⟨?_, by simp⟩
        simp only [manageSynchonousRunner, hideWaitingCursor]
        split <;> rfl
  have hkeep := run_seed ext events r1.1 r2 hrun hno
  obtain ⟨r, hr, heff, hseed⟩ := execute_full_seed ext r2.1 inp hfull
  refine ⟨hS.1, hS.2, r, hr, ?_, ?_, ?_, ?_⟩
  · rw [heff, hkeep, hS.1]; simp
  · intro seed hmem
    rw [heff, hkeep, hS.1] at hmem
    simpa using hmem
  · rw [heff]; simp
  · rw [hseed, hkeep, hS.1]

/-- Instance of C6: an interactive preview stores seed 9, the job is cancelled
and the descriptor switched to full-apply; the apply is seeded with 9. -/
theorem seed_replay_witness :
    ((sampleProcessor RequestType.PreviewProcessing)._filterContext.requestType
        ≠ RequestType.FullImageProcessing
      ∧ execute sampleExternals (sampleProcessor RequestType.PreviewProcessing) (sampleInput 9)
        = some (sampleRun RequestType.PreviewProcessing [Event.execute (sampleInput 9)])
      ∧ run sampleExternals (sampleActive RequestType.PreviewProcessing)
          [Event.cancel, Event.setContext (sampleContext RequestType.FullImageProcessing)]
        = some (runFrom (sampleActive RequestType.PreviewProcessing)
          [Event.cancel, Event.setContext (sampleContext RequestType.FullImageProcessing)])
      ∧ noPreviewDispatch sampleExternals (sampleActive RequestType.PreviewProcessing)
          [Event.cancel, Event.setContext (sampleContext RequestType.FullImageProcessing)] = true
      ∧ (runFrom (sampleActive RequestType.PreviewProcessing)
          [Event.cancel, Event.setContext (sampleContext RequestType.FullImageProcessing)]
          ).1._filterContext.requestType = RequestType.FullImageProcessing)
    ∧ (sampleActive RequestType.PreviewProcessing)._previewRandomSeed = (sampleInput 9).rand :=
  ⟨⟨by decide, by decide, by decide, by decide, by decide⟩,
    (seed_replay sampleExternals (sampleProcessor RequestType.PreviewProcessing) (sampleInput 9)
      (sampleRun RequestType.PreviewProcessing [Event.execute (sampleInput 9)])
      [Event.cancel, Event.setContext (sampleContext RequestType.FullImageProcessing)]
      (runFrom (sampleActive RequestType.PreviewProcessing)
        [Event.cancel, Event.setContext (sampleContext RequestType.FullImageProcessing)])
      (sampleInput 10) (by decide) (by decide) (by decide) (by decide) (by decide)).1⟩

/-! ## Full-apply completion -/

theorem check_none_iff (images : List CImg) :
    checkImageSpectrumAtMost4 images = none ↔ ∀ img ∈ images, img.spectrum ≤ 4 := by
  induction images with
  | nil => simp [checkImageSpectrumAtMost4]
  | cons img rest ih =>
    unfold checkImageSpectrumAtMost4
    by_cases h : img.spectrum > 4
    · simp [h]
    · simp only [h, if_false, Option.map_eq_none', ih, List.mem_cons, forall_eq_or_imp]
      constructor
      · intro h1; exact ⟨by omega, h1⟩
      · intro h1; exact h1.2

theorem check_first (images : List CImg) :
    ∀ (i : Nat) (img : CImg), images[i]? = some img → img.spectrum > 4 →
      (∀ j, j < i → spectrumAt images j ≤ 4) → checkImageSpectrumAtMost4 images = some i := by
  induction images with
  | nil => intro i img h; simp at h
  | cons x rest ih =>
    intro i img h hbad hbefore
    unfold checkImageSpectrumAtMost4
    cases i with
    | zero =>
      simp at h; subst h
      simp [hbad]
    | succ k =>
      have h0 : ¬ x.spectrum > 4 := by
        have := hbefore 0 (by omega)
        simp [spectrumAt] at this
        omega
      have hk : rest[k]? = some img := by simpa using h
      have hrest := ih k img hk hbad (by
        intro j hj
        have := hbefore (j + 1) (by omega)
        simpa [spectrumAt] using this)
      simp [h0, hrest]

/-- A finished full-apply job with a valid result: the slot returns, adds 1 to
the counter, delivers the images, commits the status lines and leaves the
identity fields of the record as they are. -/
theorem apply_success (ext : Externals) (s : GmicProcessor) (p : Nat) (t : FilterThread)
    (hp : s._filterThread = some p) (ht : s.threads[p]? = some t)
    (hc : t.abortRequested = false) (hrun : t.running = false) (hf : t.failed = false)
    (hb : checkImageSpectrumAtMost4 t.images = none) :
    ∃ r, onApplyThreadFinished ext s = some r
      ∧ r.1._completeFullImageProcessingCount = s._completeFullImageProcessingCount + 1
      ∧ r.1._lastAppliedFilterHash = s._lastAppliedFilterHash
      ∧ r.1._lastAppliedFilterPath = s._lastAppliedFilterPath
      ∧ r.1._lastAppliedCommand = s._lastAppliedCommand
      ∧ r.1._lastAppliedCommandArguments = s._lastAppliedCommandArguments
      ∧ r.1._lastAppliedCommandInOutState = s._lastAppliedCommandInOutState
      ∧ r.1._lastAppliedCommandGmicStatus = t.gmicStatus
      ∧ Effect.fullImageProcessingDone ∈ r.2
      ∧ Effect.gmic_qt_output_images t.images t.imageNames
          s._filterContext.inputOutputState.outputMode ∈ r.2 := by
  simp only [onApplyThreadFinished, hp, ht, hc, hrun, hf, hideWaitingCursor]
  simp [hb]

/-- A finished full-apply job that failed or whose result is rejected: the slot
returns, leaves the counter alone, empties the path, command and arguments of
the record, and keeps its hash and input/output state. It emits only the
failure and hides the busy indicator. -/
theorem apply_rejected (ext : Externals) (s : GmicProcessor) (p : Nat) (t : FilterThread)
    (hp : s._filterThread = some p) (ht : s.threads[p]? = some t)
    (hc : t.abortRequested = false) (hrun : t.running = false)
    (hbad : t.failed = true ∨ checkImageSpectrumAtMost4 t.images ≠ none) :
    ∃ r message, onApplyThreadFinished ext s = some r
      ∧ r.1._completeFullImageProcessingCount = s._completeFullImageProcessingCount
      ∧ r.1._lastAppliedFilterPath = ""
      ∧ r.1._lastAppliedCommand = ""
      ∧ r.1._lastAppliedCommandArguments = ""
      ∧ r.1._lastAppliedFilterHash = s._lastAppliedFilterHash
      ∧ r.1._lastAppliedCommandInOutState = s._lastAppliedCommandInOutState
      ∧ r.2 = [Effect.setWaiting false, Effect.fullImageProcessingFailed message]
      ∧ message = (if t.failed then t.errorMessage
          else applySpectrumMessage ((checkImageSpectrumAtMost4 t.images).getD 0)
            (spectrumAt t.images ((checkImageSpectrumAtMost4 t.images).getD 0))) := by
  simp only [onApplyThreadFinished, hp, ht, hc, hrun, hideWaitingCursor]
  by_cases hf : t.failed = true
  · simp [hf]
  · have hb : checkImageSpectrumAtMost4 t.images ≠ none := by
      rcases hbad with h | h
      · exact absurd h hf
      · exact h
    cases hbi : checkImageSpectrumAtMost4 t.images with
    | none => exact absurd hbi hb
    | some i => simp [hf, hbi]

/-- A full-apply job dispatched with descriptor `D` whose engine run has
returned with outcome `o`, whatever descriptor `D1` is set afterwards: the
state the slot `onApplyThreadFinished` then finds. -/
theorem dispatch_then_return (ext : Externals) (s : GmicProcessor) (D D1 : FilterContext)
    (inp : ExecuteInput) (o : ThreadOutcome)
    (hD : D.requestType = RequestType.FullImageProcessing) :
    ∃ r t, execute ext (setContext s D) inp = some r
      ∧ (setContext (threadReturns r.1 s.threads.length o) D1)._filterThread
          = some s.threads.length
      ∧ (setContext (threadReturns r.1 s.threads.length o) D1).threads[s.threads.length]?
          = some t
      ∧ t.abortRequested = false ∧ t.running = false ∧ t.failed = o.failed
      ∧ t.errorMessage = o.errorMessage ∧ t.images = o.images
      ∧ t.gmicStatus = o.gmicStatus ∧ t.imageNames = o.imageNames
      ∧ (setContext (threadReturns r.1 s.threads.length o) D1)._completeFullImageProcessingCount
          = s._completeFullImageProcessingCount
      ∧ (setContext (threadReturns r.1 s.threads.length o) D1)._lastAppliedFilterHash
          = D.filterHash
      ∧ (setContext (threadReturns r.1 s.threads.length o) D1)._lastAppliedFilterPath
          = D.filterFullPath
      ∧ (setContext (threadReturns r.1 s.threads.length o) D1)._lastAppliedCommand
          = D.filterCommand
      ∧ (setContext (threadReturns r.1 s.threads.length o) D1)._lastAppliedCommandArguments
          = D.filterArguments
      ∧ (setContext (threadReturns r.1 s.threads.length o) D1)._lastAppliedCommandInOutState
          = D.inputOutputState := by
  have hk : (setContext s D)._filterContext.requestType = RequestType.FullImageProcessing := hD
  simp only [execute, hk]
  refine ⟨_, _, rfl, ?_, updateThread_get_self _ _ _ _ (List.getElem?_concat_length _ _), ?_⟩
  · simp [setContext, threadReturns]
  · simp [setContext, threadReturns, FilterThread.create]

/-- C7: a full-apply job dispatched by `execute()` with descriptor `D` whose
engine run succeeds with every output image at most 4 channels: the slot
`onApplyThreadFinished` returns, the completed-apply counter is 1 more than
before, the identity fields of the Last-Applied Record are those of `D` (also
when another descriptor has been set since), its status lines are the job's,
and `fullImageProcessingDone` is emitted. -/
theorem full_apply_success_commits (ext : Externals) (s : GmicProcessor)
    (D D1 : FilterContext) (inp : ExecuteInput) (o : ThreadOutcome)
    (hD : D.requestType = RequestType.FullImageProcessing)
    (hok : o.failed = false) (hvalid : ∀ img ∈ o.images, img.spectrum ≤ 4) :
    ∃ r1 r2, execute ext (setContext s D) inp = some r1
      ∧ r1.1._filterThread = some s.threads.length
      ∧ onApplyThreadFinished ext (setContext (threadReturns r1.1 s.threads.length o) D1)
          = some r2
      ∧ completedFullImageProcessingCount r2.1
          = completedFullImageProcessingCount
              (setContext (threadReturns r1.1 s.threads.length o) D1) + 1
      ∧ completedFullImageProcessingCount r2.1 = completedFullImageProcessingCount s + 1
      ∧ r2.1._lastAppliedFilterHash = D.filterHash
      ∧ r2.1._lastAppliedFilterPath = D.filterFullPath
      ∧ r2.1._lastAppliedCommand = D.filterCommand
      ∧ r2.1._lastAppliedCommandArguments = D.filterArguments
      ∧ r2.1._lastAppliedCommandInOutState = D.inputOutputState
      ∧ r2.1._lastAppliedCommandGmicStatus = o.gmicStatus
      ∧ Effect.fullImageProcessingDone ∈ r2.2 := by
  obtain ⟨r1, t, hr1, hact, hthr, hab, hrun, hfail, _, himg, hstat, _, hcnt, h1, h2, h3, h4, h5⟩ :=
    dispatch_then_return ext s D D1 inp o hD
  have hb : checkImageSpectrumAtMost4 t.images = none := by
    rw [himg]; exact (check_none_iff _).2 hvalid
  obtain ⟨r2, hr2, c, g1, g2, g3, g4, g5, g6, g7, _⟩ :=
    apply_success ext _ _ t hact hthr hab hrun (by rw [hfail, hok]) hb
  refine ⟨r1, r2, hr1, ?_, hr2, ?_, ?_, ?_, ?_, ?_, ?_, ?_, ?_, g7⟩
  · have hk : (setContext s D)._filterContext.requestType
        = RequestType.FullImageProcessing := hD
    simp only [execute, hk] at hr1
    simp only [Option.some.injEq] at hr1
    subst hr1
    rfl
  · exact c
  · simp only [completedFullImageProcessingCount]; rw [c, hcnt]
  · rw [g1, h1]
  · rw [g2, h2]
  · rw [g3, h3]
  · rw [g4, h4]
  · rw [g5, h5]
  · rw [g6, hstat]

/-- Instance of C7: a fresh coordinator applies the sample descriptor and the
engine returns one 3-channel image. -/
theorem full_apply_success_commits_witness :
    ((sampleContext RequestType.FullImageProcessing).requestType
        = RequestType.FullImageProcessing
      ∧ (sampleOutcome [sampleImage 3]).failed = false
      ∧ ∀ img ∈ (sampleOutcome [sampleImage 3]).images, img.spectrum ≤ 4)
    ∧ ∃ r1 r2, execute sampleExternals
          (setContext (sampleProcessor RequestType.PreviewProcessing)
            (sampleContext RequestType.FullImageProcessing)) (sampleInput 9) = some r1
      ∧ r1.1._filterThread = some (sampleProcessor RequestType.PreviewProcessing).threads.length
      ∧ onApplyThreadFinished sampleExternals
          (setContext (threadReturns r1.1
            (sampleProcessor RequestType.PreviewProcessing).threads.length
            (sampleOutcome [sampleImage 3])) (sampleContext RequestType.PreviewProcessing))
          = some r2
      ∧ completedFullImageProcessingCount r2.1
          = completedFullImageProcessingCount
              (setContext (threadReturns r1.1
                (sampleProcessor RequestType.PreviewProcessing).threads.length
                (sampleOutcome [sampleImage 3])) (sampleContext RequestType.PreviewProcessing))
            + 1
      ∧ completedFullImageProcessingCount r2.1
          = completedFullImageProcessingCount (sampleProcessor RequestType.PreviewProcessing) + 1
      ∧ r2.1._lastAppliedFilterHash = (sampleContext RequestType.FullImageProcessing).filterHash
      ∧ r2.1._lastAppliedFilterPath
          = (sampleContext RequestType.FullImageProcessing).filterFullPath
      ∧ r2.1._lastAppliedCommand = (sampleContext RequestType.FullImageProcessing).filterCommand
      ∧ r2.1._lastAppliedCommandArguments
          = (sampleContext RequestType.FullImageProcessing).filterArguments
      ∧ r2.1._lastAppliedCommandInOutState
          = (sampleContext RequestType.FullImageProcessing).inputOutputState
      ∧ r2.1._lastAppliedCommandGmicStatus = (sampleOutcome [sampleImage 3]).gmicStatus
      ∧ Effect.fullImageProcessingDone ∈ r2.2 :=
  ⟨⟨rfl, rfl, by decide⟩,
    full_apply_success_commits sampleExternals (sampleProcessor RequestType.PreviewProcessing)
      (sampleContext RequestType.FullImageProcessing)
      (sampleContext RequestType.PreviewProcessing) (sampleInput 9)
      (sampleOutcome [sampleImage 3]) rfl rfl (by decide)⟩

/-- The claim C8 fails as stated: after a failed full-apply of the sample
descriptor the record still holds its filter hash and its input/output state;
only path, command and arguments are empty. -/
theorem failed_apply_keeps_hash_counterexample :
    (sampleContext RequestType.FullImageProcessing).filterHash = "h1"
    ∧ (run sampleExternals (sampleProcessor RequestType.FullImageProcessing)
        [Event.execute (sampleInput 9), Event.threadReturns 0 sampleFailure,
          Event.applyThreadFinished]).map
        (fun r => (r.1._lastAppliedFilterHash, r.1._lastAppliedCommandInOutState,
          r.1._lastAppliedFilterPath, r.1._lastAppliedCommand,
          r.1._lastAppliedCommandArguments))
      = some ("h1", (sampleContext RequestType.FullImageProcessing).inputOutputState,
          "", "", "") := by
  decide

/-- C8, amended: a full-apply job dispatched by `execute()` that completes
with an engine failure, or whose result has an image with more than 4
channels: the slot `onApplyThreadFinished` returns, leaves the completed-apply
counter unchanged, empties the filter path, the command and the arguments of
the Last-Applied Record, and emits `fullImageProcessingFailed` and not
`fullImageProcessingDone`. -/
theorem full_apply_failure_clears (ext : Externals) (s : GmicProcessor)
    (D D1 : FilterContext) (inp : ExecuteInput) (o : ThreadOutcome)
    (hD : D.requestType = RequestType.FullImageProcessing)
    (hbad : o.failed = true ∨ ∃ img ∈ o.images, img.spectrum > 4) :
    ∃ r1 r2, execute ext (setContext s D) inp = some r1
      ∧ r1.1._filterThread = some s.threads.length
      ∧ r1.1._lastAppliedFilterPath = D.filterFullPath
      ∧ r1.1._lastAppliedCommand = D.filterCommand
      ∧ r1.1._lastAppliedCommandArguments = D.filterArguments
      ∧ onApplyThreadFinished ext (setContext (threadReturns r1.1 s.threads.length o) D1)
          = some r2
      ∧ completedFullImageProcessingCount r2.1
          = completedFullImageProcessingCount
              (setContext (threadReturns r1.1 s.threads.length o) D1)
      ∧ completedFullImageProcessingCount r2.1 = completedFullImageProcessingCount s
      ∧ r2.1._lastAppliedFilterPath = ""
      ∧ r2.1._lastAppliedCommand = ""
      ∧ r2.1._lastAppliedCommandArguments = ""
      ∧ (∃ message, Effect.fullImageProcessingFailed message ∈ r2.2)
      ∧ Effect.fullImageProcessingDone ∉ r2.2 := by
  obtain ⟨r1, t, hr1, hact, hthr, hab, hrun, hfail, _, himg, _, _, hcnt, _, _, _, _, _⟩ :=
    dispatch_then_return ext s D D1 inp o hD
  have hb : t.failed = true ∨ checkImageSpectrumAtMost4 t.images ≠ none := by
    rcases hbad with h | ⟨img, hmem, hgt⟩
    · left; rw [hfail, h]
    · right
      rw [himg]
      intro hnone
      have := (check_none_iff _).1 hnone img hmem
      omega
  obtain ⟨r2, message, hr2, c, g1, g2, g3, _, _, heff, _⟩ :=
    apply_rejected ext _ _ t hact hthr hab hrun hb
  have hk : (setContext s D)._filterContext.requestType
      = RequestType.FullImageProcessing := hD
  simp only [execute, hk] at hr1
  simp only [Option.some.injEq] at hr1
  subst hr1
  refine ⟨_, r2, by simp only [execute, hk], rfl, rfl, rfl, rfl, hr2, c, ?_, g1, g2, g3,
    ⟨message, by rw [heff]; simp⟩, by rw [heff]; simp⟩
  simp only [completedFullImageProcessingCount]; rw [c, hcnt]

/-- Instance of the amended C8: the sample apply fails in the engine. -/
theorem full_apply_failure_clears_witness :
    ((sampleContext RequestType.FullImageProcessing).requestType
        = RequestType.FullImageProcessing
      ∧ (sampleFailure.failed = true ∨ ∃ img ∈ sampleFailure.images, img.spectrum > 4))
    ∧ ∃ r1 r2, execute sampleExternals
          (setContext (sampleProcessor RequestType.PreviewProcessing)
            (sampleContext RequestType.FullImageProcessing)) (sampleInput 9) = some r1
      ∧ r1.1._filterThread = some (sampleProcessor RequestType.PreviewProcessing).threads.length
      ∧ r1.1._lastAppliedFilterPath
          = (sampleContext RequestType.FullImageProcessing).filterFullPath
      ∧ r1.1._lastAppliedCommand = (sampleContext RequestType.FullImageProcessing).filterCommand
      ∧ r1.1._lastAppliedCommandArguments
          = (sampleContext RequestType.FullImageProcessing).filterArguments
      ∧ onApplyThreadFinished sampleExternals
          (setContext (threadReturns r1.1
            (sampleProcessor RequestType.PreviewProcessing).threads.length sampleFailure)
            (sampleContext RequestType.PreviewProcessing))
          = some r2
      ∧ completedFullImageProcessingCount r2.1
          = completedFullImageProcessingCount
              (setContext (threadReturns r1.1
                (sampleProcessor RequestType.PreviewProcessing).threads.length sampleFailure)
                (sampleContext RequestType.PreviewProcessing))
      ∧ completedFullImageProcessingCount r2.1
          = completedFullImageProcessingCount (sampleProcessor RequestType.PreviewProcessing)
      ∧ r2.1._lastAppliedFilterPath = ""
      ∧ r2.1._lastAppliedCommand = ""
      ∧ r2.1._lastAppliedCommandArguments = ""
      ∧ (∃ message, Effect.fullImageProcessingFailed message ∈ r2.2)
      ∧ Effect.fullImageProcessingDone ∉ r2.2 :=
  ⟨⟨rfl, Or.inl rfl⟩,
    full_apply_failure_clears sampleExternals (sampleProcessor RequestType.PreviewProcessing)
      (sampleContext RequestType.FullImageProcessing)
      (sampleContext RequestType.PreviewProcessing) (sampleInput 9) sampleFailure rfl
      (Or.inl rfl)⟩

/-- C9: a finished full-apply job whose engine run did not fail and whose
result has its first image with more than 4 channels at index `i`: the slot
returns having only hidden the busy indicator and emitted
`fullImageProcessingFailed` with the message citing `i` and that image's channel
count; `gmic_qt_output_images` is not called and none of the three proxies is
cleared. -/
theorem invalid_apply_result_rejected (ext : Externals) (s : GmicProcessor) (p : Nat)
    (t : FilterThread) (i : Nat) (img : CImg)
    (hp : s._filterThread = some p) (ht : s.threads[p]? = some t)
    (hc : t.abortRequested = false) (hrun : t.running = false) (hf : t.failed = false)
    (hi : t.images[i]? = some img) (hbad : img.spectrum > 4)
    (hfirst : ∀ j, j < i → spectrumAt t.images j ≤ 4) :
    ∃ r, onApplyThreadFinished ext s = some r
      ∧ r.2 = [Effect.setWaiting false,
          Effect.fullImageProcessingFailed (applySpectrumMessage i img.spectrum)]
      ∧ (∀ images names mode, Effect.gmic_qt_output_images images names mode ∉ r.2)
      ∧ Effect.layersExtentProxyClear ∉ r.2
      ∧ Effect.croppedActiveLayerProxyClear ∉ r.2
      ∧ Effect.croppedImageListProxyClear ∉ r.2
      ∧ Effect.fullImageProcessingDone ∉ r.2
      ∧ r.1._completeFullImageProcessingCount = s._completeFullImageProcessingCount := by
  have hchk := check_first t.images i img hi hbad hfirst
  obtain ⟨r, message, hr, c, _, _, _, _, _, heff, hmsg⟩ :=
    apply_rejected ext s p t hp ht hc hrun (Or.inr (by rw [hchk]; simp))
  have hsp : spectrumAt t.images i = img.spectrum := by simp [spectrumAt, hi]
  have hm : message = applySpectrumMessage i img.spectrum := by
    rw [hmsg, hchk]; simp [hf, hsp]
  subst hm
  refine ⟨r, hr, heff, ?_, ?_, ?_, ?_, ?_, c⟩ <;> simp [heff]

/-- Instance of C9: a 4-image batch with 1, 4, 5 and 6 channels reports
index 2 and 5 channels. -/
theorem invalid_apply_result_rejected_witness :
    ((sampleFinished RequestType.FullImageProcessing
          (sampleOutcome [sampleImage 1, sampleImage 4, sampleImage 5, sampleImage 6])
        )._filterThread = some 0
      ∧ (sampleOutcome [sampleImage 1, sampleImage 4, sampleImage 5, sampleImage 6]).images[2]?
          = some (sampleImage 5)
      ∧ (sampleImage 5).spectrum > 4)
    ∧ applySpectrumMessage 2 (sampleImage 5).spectrum
        = "Image #2 returned by filter has 5 channels\n(should be at most 4)"
    ∧ ∃ r, onApplyThreadFinished sampleExternals
          (sampleFinished RequestType.FullImageProcessing
            (sampleOutcome [sampleImage 1, sampleImage 4, sampleImage 5, sampleImage 6]))
          = some r
      ∧ r.2 = [Effect.setWaiting false,
          Effect.fullImageProcessingFailed (applySpectrumMessage 2 (sampleImage 5).spectrum)]
      ∧ (∀ images names mode, Effect.gmic_qt_output_images images names mode ∉ r.2)
      ∧ Effect.layersExtentProxyClear ∉ r.2
      ∧ Effect.croppedActiveLayerProxyClear ∉ r.2
      ∧ Effect.croppedImageListProxyClear ∉ r.2
      ∧ Effect.fullImageProcessingDone ∉ r.2
      ∧ r.1._completeFullImageProcessingCount
          = (sampleFinished RequestType.FullImageProcessing
              (sampleOutcome [sampleImage 1, sampleImage 4, sampleImage 5, sampleImage 6])
            )._completeFullImageProcessingCount :=
  ⟨⟨rfl, rfl, by decide⟩, by decide,
    invalid_apply_result_rejected sampleExternals
      (sampleFinished RequestType.FullImageProcessing
        (sampleOutcome [sampleImage 1, sampleImage 4, sampleImage 5, sampleImage 6])) 0
      (threadAt (sampleFinished RequestType.FullImageProcessing
        (sampleOutcome [sampleImage 1, sampleImage 4, sampleImage 5, sampleImage 6])) 0)
      2 (sampleImage 5) rfl rfl rfl rfl rfl rfl (by decide) (by decide)⟩

/-! ## Telemetry window -/

/-- The claim C10 fails as stated: with capacity 4, after recording 10, 20,
30, 40, 50 the window holds three entries and the average is not 35. -/
theorem average_of_five_records_counterexample :
    (recordDurations 4 [] [10, 20, 30, 40, 50]).map List.length = some 3
    ∧ (recordDurations 4 [] [10, 20, 30, 40, 50]).map averagePreviewFilterExecutionDuration
        ≠ some 35 := by
  decide

/-- C10, amended: with capacity `K = 4` and an initially empty window, after
recording 10, 20, 30, 40, 50 in that order the window holds the 3 most
recently recorded entries 30, 40, 50, and the average is their average, 40. -/
theorem average_of_five_records :
    recordDurations 4 [] [10, 20, 30, 40, 50] = some [30, 40, 50]
    ∧ (recordDurations 4 [] [10, 20, 30, 40, 50]).map averagePreviewFilterExecutionDuration
        = some 40
    ∧ averagePreviewFilterExecutionDuration [30, 40, 50] = (30 + 40 + 50) / 3 := by
  decide

/-! ## Ownership of job handles -/

theorem updateThread_get (s : GmicProcessor) (p q : Nat) (f : FilterThread → FilterThread) :
    (updateThread s p f).threads[q]?
      = if q = p then (s.threads[q]?).map f else s.threads[q]? := by
  by_cases h : q = p
  · subst h
    cases ht : s.threads[q]? with
    | none => simp [updateThread, ht]
    | some t => rw [updateThread_get_self s q f t ht]; simp
  · simp [h, updateThread_get_other s p q f (Ne.symm h)]

theorem live_lt (s : GmicProcessor) (q : Nat) (h : live s q) : q < s.threads.length := by
  obtain ⟨t, ht, _⟩ := h
  rcases Nat.lt_or_ge q s.threads.length with h1 | h1
  · exact h1
  · rw [List.getElem?_eq_none h1] at ht; cases ht

theorem live_iff_flag (s : GmicProcessor) (q : Nat) :
    live s q ↔ (s.threads[q]?).map (fun t => t.deleteLaterCalled) = some false := by
  simp only [live]
  cases s.threads[q]? <;> simp

theorem live_updateThread_keep (s : GmicProcessor) (p q : Nat)
    (f : FilterThread → FilterThread)
    (hf : ∀ t, (f t).deleteLaterCalled = t.deleteLaterCalled) :
    live (updateThread s p f) q ↔ live s q := by
  simp only [live, updateThread_get]
  by_cases h : q = p
  · simp only [h, if_true]
    cases s.threads[p]? with
    | none => simp
    | some t => simp [hf]
  · simp [h]

theorem live_updateThread_delete (s : GmicProcessor) (p q : Nat) :
    live (updateThread s p (fun t => { t with deleteLaterCalled := true })) q
      ↔ (live s q ∧ q ≠ p) := by
  simp only [live, updateThread_get]
  by_cases h : q = p
  · simp only [h, if_true]
    cases s.threads[p]? with
    | none => simp
    | some t => simp
  · simp [h]

theorem abort_ownership (s : GmicProcessor) :
    OwnershipStep s (abortCurrentFilterThread s).1 := by
  cases hh : s._filterThread with
  | none =>
    have : abortCurrentFilterThread s = (s, []) := by simp [abortCurrentFilterThread, hh]
    rw [this]
    exact OwnershipStep.same rfl rfl (fun _ => Iff.rfl)
  | some h =>
    have ha := abort_active s h hh
    refine OwnershipStep.retire h hh ha.1 ha.2.1 (fun q => ?_)
    simp only [live_iff_flag, abortCurrentFilterThread, hh, updateThread_get]
    by_cases hq : q = h
    · simp only [hq, if_true]
      cases s.threads[h]? <;> simp
    · simp [hq]

theorem execute_ownership (ext : Externals) (s : GmicProcessor) (inp : ExecuteInput)
    (r : GmicProcessor × List Effect) (h : execute ext s inp = some r)
    (hno : overwritesActive s (Event.execute inp) = false) : OwnershipStep s r.1 := by
  by_cases hk : s._filterContext.requestType = RequestType.SynchronousPreviewProcessing
  · simp only [execute, hk] at h
    split at h
    · cases h
    · simp only [Option.some.injEq] at h
      subst h
      simp only [manageSynchonousRunner, hideWaitingCursor]
      split
      · exact OwnershipStep.same rfl rfl (fun _ => Iff.rfl)
      · exact OwnershipStep.same rfl rfl (fun _ => Iff.rfl)
  · have hempty : s._filterThread = none := by
      simp only [overwritesActive, Bool.and_eq_false_iff, decide_eq_false_iff_not] at hno
      rcases hno with h1 | h1
      · cases hs : s._filterThread with
        | none => rfl
        | some _ => simp [hs] at h1
      · exact absurd hk (by simpa using h1)
    obtain ⟨r1, t, hr1, ha, hret, hthr, _, hdel, _⟩ := execute_background ext s inp hk
    rw [hr1] at h
    simp only [Option.some.injEq] at h
    subst h
    refine OwnershipStep.create hempty ha hret (fun q => ?_)
    simp only [live, hthr]
    rcases Nat.lt_trichotomy q s.threads.length with hq | hq | hq
    · rw [List.getElem?_append_left hq]
      constructor
      · intro h1; exact Or.inl h1
      · intro h1
        rcases h1 with h1 | h1
        · exact h1
        · omega
    · subst hq
      rw [List.getElem?_concat_length]
      constructor
      · intro _; exact Or.inr rfl
      · intro _; exact ⟨t, rfl, hdel⟩
    · have h1 : (s.threads ++ [t])[q]? = none := by
        apply List.getElem?_eq_none; simp; omega
      have h2 : s.threads[q]? = none := by
        apply List.getElem?_eq_none; omega
      rw [h1, h2]
      constructor
      · intro ⟨_, hx, _⟩; cases hx
      · intro hx
        rcases hx with ⟨_, hx, _⟩ | hx
        · cases hx
        · omega

/-- The liveness flag of the handle `q` in a state: whether `deleteLater()` has
been called on it, when it exists. -/
theorem flag_after_delete (s u : GmicProcessor) (p q : Nat)
    (hu : ∀ q : Nat, (u.threads[q]?).map (fun t => t.deleteLaterCalled)
      = (s.threads[q]?).map (fun t => t.deleteLaterCalled)) :
    live (updateThread u p (fun t => { t with deleteLaterCalled := true })) q
      ↔ (live s q ∧ q ≠ p) := by
  simp only [live_iff_flag]
  rw [updateThread_get]
  by_cases hq : q = p
  · simp only [hq, if_true]
    cases u.threads[p]? <;> simp
  · simp [hq, hu]

theorem flag_after_keep (s u : GmicProcessor) (p q : Nat) (f : FilterThread → FilterThread)
    (hf : ∀ t, (f t).deleteLaterCalled = t.deleteLaterCalled)
    (hu : u.threads = s.threads) :
    ((updateThread u p f).threads[q]?).map (fun t => t.deleteLaterCalled)
      = (s.threads[q]?).map (fun t => t.deleteLaterCalled) := by
  rw [updateThread_get, hu]
  by_cases hq : q = p
  · simp only [hq, if_true]
    cases s.threads[p]? <;> simp [hf]
  · simp [hq]

theorem onPreviewThreadFinished_ownership (ext : Externals) (s : GmicProcessor)
    (elapsed : Int) (r : GmicProcessor × List Effect)
    (h : onPreviewThreadFinished ext s elapsed = some r) : OwnershipStep s r.1 := by
  unfold onPreviewThreadFinished at h
  simp only [hideWaitingCursor] at h
  split at h
  · cases h
  · rename_i p hp
    split at h
    · cases h
    · split at h
      · simp only [Option.some.injEq] at h; subst h
        exact OwnershipStep.same rfl rfl (fun _ => Iff.rfl)
      · split at h
        · simp only [Option.some.injEq] at h; subst h
          refine OwnershipStep.destroyActive p hp rfl (by simp) (fun q => ?_)
          exact flag_after_delete s _ p q (fun _ => rfl)
        · split at h
          · split at h
            · cases h
            · simp only [Option.some.injEq] at h; subst h
              refine OwnershipStep.destroyActive p hp rfl (by simp) (fun q => ?_)
              exact flag_after_delete s _ p q
                (fun q => flag_after_keep s _ p q _ (fun _ => rfl) rfl)
          · simp only [Option.some.injEq] at h; subst h
            refine OwnershipStep.destroyActive p hp rfl (by simp) (fun q => ?_)
            exact flag_after_delete s _ p q
              (fun q => flag_after_keep s _ p q _ (fun _ => rfl) rfl)

theorem onApplyThreadFinished_ownership (ext : Externals) (s : GmicProcessor)
    (r : GmicProcessor × List Effect)
    (h : onApplyThreadFinished ext s = some r) : OwnershipStep s r.1 := by
  unfold onApplyThreadFinished at h
  simp only [hideWaitingCursor] at h
  split at h
  · cases h
  · rename_i p hp
    split at h
    · cases h
    · split at h
      · cases h
      · split at h
        · simp only [Option.some.injEq] at h; subst h
          exact OwnershipStep.same rfl rfl (fun _ => Iff.rfl)
        · split at h
          · simp only [Option.some.injEq] at h; subst h
            refine OwnershipStep.destroyActive p hp rfl (by simp) (fun q => ?_)
            exact flag_after_delete s _ p q (fun _ => rfl)
          · split at h
            · simp only [Option.some.injEq] at h; subst h
              refine OwnershipStep.destroyActive p hp rfl (by simp) (fun q => ?_)
              exact flag_after_delete s _ p q
                (fun q => flag_after_keep s _ p q _ (fun _ => rfl) rfl)
            · simp only [Option.some.injEq] at h; subst h
              refine OwnershipStep.destroyActive p hp rfl (by simp) (fun q => ?_)
              exact flag_after_delete s _ p q
                (fun q => flag_after_keep s _ p q _ (fun _ => rfl) rfl)

theorem onAbortedThreadFinished_ownership (s : GmicProcessor) (sender : Option Nat) :
    OwnershipStep s (onAbortedThreadFinished s sender).1 := by
  unfold onAbortedThreadFinished
  cases sender with
  | none => exact OwnershipStep.same rfl rfl (fun _ => Iff.rfl)
  | some p =>
    by_cases hmem : p ∈ s._unfinishedAbortedThreads
    · simp only [hmem, if_true]
      refine OwnershipStep.destroyRetiring p hmem (by simp) (by simp) (fun q => ?_)
      exact flag_after_delete s _ p q (fun _ => rfl)
    · simp only [hmem, if_false]
      exact OwnershipStep.same rfl rfl (fun _ => Iff.rfl)

theorem step_ownership (ext : Externals) (s : GmicProcessor) (e : Event)
    (r : GmicProcessor × List Effect) (h : step ext s e = some r)
    (hno : overwritesActive s e = false) : OwnershipStep s r.1 := by
  cases e with
  | setContext c =>
    simp only [step, Option.some.injEq] at h; subst h
    exact OwnershipStep.same rfl rfl (fun _ => Iff.rfl)
  | execute inp => exact execute_ownership ext s inp r h hno
  | cancel =>
    simp only [step, Option.some.injEq] at h; subst h
    exact abort_ownership s
  | init =>
    simp only [step, Option.some.injEq] at h; subst h
    cases abort_ownership s with
    | same h1 h2 h3 => exact OwnershipStep.same h1 h2 h3
    | create h0 h1 h2 h3 => exact OwnershipStep.create h0 h1 h2 h3
    | retire x h0 h1 h2 h3 => exact OwnershipStep.retire x h0 h1 h2 h3
    | destroyActive x h0 h1 h2 h3 => exact OwnershipStep.destroyActive x h0 h1 h2 h3
    | destroyRetiring x h0 h1 h2 h3 => exact OwnershipStep.destroyRetiring x h0 h1 h2 h3
  | threadReturns p o =>
    simp only [step, Option.some.injEq] at h; subst h
    refine OwnershipStep.same (by simp [threadReturns]) (by simp [threadReturns]) (fun q => ?_)
    exact live_updateThread_keep s p q _ (fun _ => rfl)
  | previewThreadFinished elapsed => exact onPreviewThreadFinished_ownership ext s elapsed r h
  | applyThreadFinished => exact onApplyThreadFinished_ownership ext s r h
  | abortedThreadFinished sender =>
    simp only [step, Option.some.injEq] at h; subst h
    exact onAbortedThreadFinished_ownership s sender
  | timerTimeout =>
    simp only [step, Option.some.injEq] at h; subst h
    simp only [timerTimeout, showWaitingCursor]
    split
    · split
      · exact OwnershipStep.same rfl rfl (fun _ => Iff.rfl)
      · exact OwnershipStep.same rfl rfl (fun _ => Iff.rfl)
    · exact OwnershipStep.same rfl rfl (fun _ => Iff.rfl)

theorem held_not_retiring (s : GmicProcessor) (h : Nat) (hinv : ownershipInvariant s)
    (hheld : s._filterThread = some h) : h ∉ s._unfinishedAbortedThreads := by
  rcases hinv.1 h (hinv.2.2.1 h hheld) with h1 | h1
  · exact h1.2
  · exact absurd hheld h1.1

theorem ownership_preserved (s s1 : GmicProcessor) (hstep : OwnershipStep s s1)
    (hinv : ownershipInvariant s) : ownershipInvariant s1 := by
  obtain ⟨hown, hnodup, hact, hret⟩ := hinv
  cases hstep with
  | same ha hr hl =>
    refine ⟨?_, by rw [hr]; exact hnodup, ?_, ?_⟩
    · intro p hp
      have := hown p ((hl p).1 hp)
      simpa only [ownedOnce, ha, hr] using this
    · intro p hp; rw [ha] at hp; exact (hl p).2 (hact p hp)
    · intro p hp; rw [hr] at hp; exact (hl p).2 (hret p hp)
  | create h0 ha hr hl =>
    refine ⟨?_, by rw [hr]; exact hnodup, ?_, ?_⟩
    · intro p hp
      rcases (hl p).1 hp with h1 | h1
      · right
        have hlt := live_lt s p h1
        refine ⟨?_, ?_⟩
        · rw [ha]; intro hc; simp only [Option.some.injEq] at hc; omega
        · rw [hr]
          rcases hown p h1 with h2 | h2
          · rw [h0] at h2; cases h2.1
          · exact h2.2
      · left
        subst h1
        refine ⟨ha, ?_⟩
        rw [hr]
        intro hc
        have := live_lt s _ (hret _ hc)
        omega
    · intro p hp
      rw [ha] at hp
      simp only [Option.some.injEq] at hp
      exact (hl p).2 (Or.inr hp.symm)
    · intro p hp
      rw [hr] at hp
      exact (hl p).2 (Or.inl (hret p hp))
  | retire h hheld ha hr hl =>
    have hnot := held_not_retiring s h ⟨hown, hnodup, hact, hret⟩ hheld
    refine ⟨?_, ?_, ?_, ?_⟩
    · intro p hp
      right
      refine ⟨by rw [ha]; simp, ?_⟩
      rw [hr]
      rcases hown p ((hl p).1 hp) with h1 | h1
      · have : p = h := by
          have := h1.1; rw [hheld] at this
          simp only [Option.some.injEq] at this; exact this.symm
        simp [this]
      · simp [h1.2]
    · rw [hr]
      exact List.Nodup.append hnodup (List.nodup_singleton h) (by simpa using hnot)
    · intro p hp; rw [ha] at hp; cases hp
    · intro p hp
      rw [hr] at hp
      rcases List.mem_append.1 hp with h1 | h1
      · exact (hl p).2 (hret p h1)
      · simp only [List.mem_singleton] at h1
        subst h1
        exact (hl p).2 (hact p hheld)
  | destroyActive h hheld ha hr hl =>
    have hnot := held_not_retiring s h ⟨hown, hnodup, hact, hret⟩ hheld
    refine ⟨?_, by rw [hr]; exact hnodup, ?_, ?_⟩
    · intro p hp
      obtain ⟨hp1, hp2⟩ := (hl p).1 hp
      right
      refine ⟨by rw [ha]; simp, ?_⟩
      rw [hr]
      rcases hown p hp1 with h1 | h1
      · have := h1.1; rw [hheld] at this
        simp only [Option.some.injEq] at this
        exact absurd this.symm hp2
      · exact h1.2
    · intro p hp; rw [ha] at hp; cases hp
    · intro p hp
      rw [hr] at hp
      refine (hl p).2 ⟨hret p hp, ?_⟩
      intro hc; subst hc; exact hnot hp
  | destroyRetiring h hheld ha hr hl =>
    have hne : s._filterThread ≠ some h := by
      rcases hown h (hret h hheld) with h1 | h1
      · exact absurd hheld h1.2
      · exact h1.1
    refine ⟨?_, by rw [hr]; exact hnodup.erase h, ?_, ?_⟩
    · intro p hp
      obtain ⟨hp1, hp2⟩ := (hl p).1 hp
      rcases hown p hp1 with h1 | h1
      · left
        refine ⟨by rw [ha]; exact h1.1, ?_⟩
        rw [hr]
        intro hc
        exact h1.2 (List.mem_of_mem_erase hc)
      · right
        refine ⟨by rw [ha]; exact h1.1, ?_⟩
        rw [hr]
        exact (List.mem_erase_of_ne hp2).2 h1.2
    · intro p hp
      rw [ha] at hp
      refine (hl p).2 ⟨hact p hp, ?_⟩
      intro hc; subst hc; exact hne hp
    · intro p hp
      rw [hr] at hp
      have h1 := (hnodup.mem_erase_iff).1 hp
      exact (hl p).2 ⟨hret p h1.2, h1.1⟩

theorem run_ownership (ext : Externals) (events : List Event) :
    ∀ (s : GmicProcessor) (r : GmicProcessor × List Effect), run ext s events = some r →
      neverOverwritesActive ext s events = true → ownershipInvariant s →
      ownershipInvariant r.1 := by
  induction events with
  | nil =>
    intro s r h _ hinv
    simp only [run, Option.some.injEq] at h; subst h
    exact hinv
  | cons e rest ih =>
    intro s r h hno hinv
    simp only [run] at h
    simp only [neverOverwritesActive, Bool.and_eq_true, Bool.not_eq_true'] at hno
    cases hstep : step ext s e with
    | none => simp [hstep] at h
    | some r1 =>
      obtain ⟨s1, eff1⟩ := r1
      simp only [hstep] at h hno
      cases hrest : run ext s1 rest with
      | none => simp [hrest] at h
      | some r2 =>
        obtain ⟨s2, eff2⟩ := r2
        simp only [hrest, Option.some.injEq] at h
        subst h
        have h1 := step_ownership ext s e (s1, eff1) hstep hno.1
        exact ih s1 (s2, eff2) hrest hno.2 (ownership_preserved s s1 h1 hinv)

theorem create_ownership (context : FilterContext) (unspecified : InputOutputState)
    (rand : Nat) : ownershipInvariant (create context unspecified rand) := by
  refine ⟨?_, by simp [create], ?_, ?_⟩
  · intro p hp
    obtain ⟨t, ht, _⟩ := hp
    simp [create] at ht
  · intro p hp; simp [create] at hp
  · intro p hp; simp [create] at hp

/-- The claim C4 fails as stated: after two interactive-preview dispatches in
a row, handle 0 is live and is referenced neither by the active slot (which
holds handle 1) nor by the retiring set (which is empty). -/
theorem overwritten_handle_unowned_counterexample :
    (run sampleExternals (sampleProcessor RequestType.PreviewProcessing)
        [Event.execute (sampleInput 9), Event.execute (sampleInput 10)]).map
        (fun r => (r.1._filterThread, r.1._unfinishedAbortedThreads,
          r.1.threads.map (fun t => t.deleteLaterCalled)))
      = some (some 1, [], [false, false])
    ∧ live (sampleRun RequestType.PreviewProcessing
        [Event.execute (sampleInput 9), Event.execute (sampleInput 10)]).1 0
    ∧ ¬ ownedOnce (sampleRun RequestType.PreviewProcessing
        [Event.execute (sampleInput 9), Event.execute (sampleInput 10)]).1 0 := by
  refine ⟨by decide, ⟨_, rfl, rfl⟩, ?_⟩
  unfold ownedOnce
  decide

/-- C4, amended: in every state reachable from the constructed coordinator by
a sequence of `setContext`, `execute`, `cancel`, `init`, completion deliveries,
timer and engine events in which `execute` for a background request is only
called while the active slot is empty (as after `init()` or `cancel()`), every
job handle created and not yet destroyed is referenced by exactly one of the
active slot and the retiring set; the retiring set has no duplicates and
neither references a destroyed handle. -/
theorem ownership_exactly_once (ext : Externals) (context : FilterContext)
    (unspecified : InputOutputState) (rand : Nat) (events : List Event)
    (r : GmicProcessor × List Effect)
    (hrun : run ext (create context unspecified rand) events = some r)
    (hno : neverOverwritesActive ext (create context unspecified rand) events = true) :
    (∀ p, live r.1 p → ownedOnce r.1 p)
    ∧ r.1._unfinishedAbortedThreads.Nodup
    ∧ (∀ p, r.1._filterThread = some p → live r.1 p)
    ∧ (∀ p, p ∈ r.1._unfinishedAbortedThreads → live r.1 p) :=
  run_ownership ext events _ r hrun hno (create_ownership context unspecified rand)

/-- Instance of the amended C4: a preview is dispatched and cancelled, a second
one dispatched, the first returns and is retired; handle 1 is live and held by
the active slot only. -/
theorem ownership_exactly_once_witness :
    (run sampleExternals (create (sampleContext RequestType.PreviewProcessing) ⟨100, 100, 100⟩ 7)
        [Event.execute (sampleInput 9), Event.cancel, Event.execute (sampleInput 10),
          Event.threadReturns 0 sampleFailure, Event.abortedThreadFinished (some 0)]
      = some (sampleRun RequestType.PreviewProcessing
        [Event.execute (sampleInput 9), Event.cancel, Event.execute (sampleInput 10),
          Event.threadReturns 0 sampleFailure, Event.abortedThreadFinished (some 0)])
      ∧ neverOverwritesActive sampleExternals
          (create (sampleContext RequestType.PreviewProcessing) ⟨100, 100, 100⟩ 7)
          [Event.execute (sampleInput 9), Event.cancel, Event.execute (sampleInput 10),
            Event.threadReturns 0 sampleFailure, Event.abortedThreadFinished (some 0)] = true)
    ∧ live (sampleRun RequestType.PreviewProcessing
        [Event.execute (sampleInput 9), Event.cancel, Event.execute (sampleInput 10),
          Event.threadReturns 0 sampleFailure, Event.abortedThreadFinished (some 0)]).1 1
    ∧ ownedOnce (sampleRun RequestType.PreviewProcessing
        [Event.execute (sampleInput 9), Event.cancel, Event.execute (sampleInput 10),
          Event.threadReturns 0 sampleFailure, Event.abortedThreadFinished (some 0)]).1 1 :=
  ⟨⟨by decide, by decide⟩, ⟨_, rfl, rfl⟩,
    (ownership_exactly_once sampleExternals (sampleContext RequestType.PreviewProcessing)
      ⟨100, 100, 100⟩ 7
      [Event.execute (sampleInput 9), Event.cancel, Event.execute (sampleInput 10),
        Event.threadReturns 0 sampleFailure, Event.abortedThreadFinished (some 0)]
      (sampleRun RequestType.PreviewProcessing
        [Event.execute (sampleInput 9), Event.cancel, Event.execute (sampleInput 10),
          Event.threadReturns 0 sampleFailure, Event.abortedThreadFinished (some 0)])
      (by decide) (by decide)).1 1 ⟨_, rfl, rfl⟩⟩

end GmicProcessor

/-! ## Telemetry window: bound, last and average -/

theorem evictWhileFull_eq_drop (K : Nat) (hK : 1 ≤ K) (l : List Int) :
    evictWhileFull K l = some (l.drop (l.length - (K - 1))) := by
  induction l with
  | nil =>
    have : ¬ (0 ≥ K) := by omega
    simp [evictWhileFull, this]
  | cons d rest ih =>
    unfold evictWhileFull
    by_cases h : (d :: rest).length ≥ K
    · rw [if_pos h, ih]
      have h1 : (d :: rest).length - (K - 1) = (rest.length - (K - 1)) + 1 := by
        simp only [List.length_cons] at h ⊢
        omega
      rw [h1, List.drop_succ_cons]
    · rw [if_neg h]
      have h1 : (d :: rest).length - (K - 1) = 0 := by
        simp only [List.length_cons] at h ⊢
        omega
      rw [h1, List.drop_zero]

/-- C11: for every capacity `K ≥ 1`, window `w` and duration `d`,
`recordPreviewFilterExecutionDurationMS(d)` returns, and the window it leaves
is the longest suffix of `w` followed by `d` with at most `K - 1` entries, in
the same order; so the window has at most `K - 1` entries and never exactly
`K`. -/
theorem record_keeps_longest_suffix (K : Nat) (hK : 1 ≤ K) (w : List Int) (d : Int) :
    ∃ w1, recordPreviewFilterExecutionDurationMS K w d = some w1
      ∧ w1 = (w ++ [d]).drop ((w ++ [d]).length - (K - 1))
      ∧ w1 <:+ (w ++ [d])
      ∧ w1.length = min (w.length + 1) (K - 1)
      ∧ (∀ l, l <:+ (w ++ [d]) → l.length ≤ K - 1 → l <:+ w1)
      ∧ w1.length ≤ K - 1
      ∧ w1.length ≠ K := by
  refine ⟨_, evictWhileFull_eq_drop K hK (w ++ [d]), rfl, List.drop_suffix _ _, ?_, ?_, ?_, ?_⟩
  · simp only [List.length_drop, List.length_append, List.length_singleton]
    omega
  · intro l hl hlen
    have h1 : l = (w ++ [d]).drop ((w ++ [d]).length - l.length) :=
      List.suffix_iff_eq_drop.1 hl
    have h2 : (w ++ [d]).drop ((w ++ [d]).length - l.length)
        <:+ (w ++ [d]).drop ((w ++ [d]).length - (K - 1)) :=
      List.drop_suffix_drop_left _ (by omega)
    rw [← h1] at h2
    exact h2
  · simp only [List.length_drop, List.length_append, List.length_singleton]
    omega
  · simp only [List.length_drop, List.length_append, List.length_singleton]
    omega

/-- Instance of C11: capacity 4, window 10, 20, 30 and duration 40. -/
theorem record_keeps_longest_suffix_witness :
    1 ≤ 4 ∧ recordPreviewFilterExecutionDurationMS 4 [10, 20, 30] 40 = some [20, 30, 40]
      ∧ ∃ w1, recordPreviewFilterExecutionDurationMS 4 [10, 20, 30] 40 = some w1
        ∧ w1 = ([10, 20, 30] ++ [40]).drop (([10, 20, 30] ++ [40]).length - (4 - 1))
        ∧ w1 <:+ ([10, 20, 30] ++ [40])
        ∧ w1.length = min (([10, 20, 30] : List Int).length + 1) (4 - 1)
        ∧ (∀ l, l <:+ ([10, 20, 30] ++ [40]) → l.length ≤ 4 - 1 → l <:+ w1)
        ∧ w1.length ≤ 4 - 1
        ∧ w1.length ≠ 4 :=
  ⟨by decide, by decide, record_keeps_longest_suffix 4 (by decide) [10, 20, 30] 40⟩

/-- C12: `lastPreviewFilterExecutionDurationMS()` is 0 on the empty window
and the last entry otherwise; for every capacity `K ≥ 2`, window and duration
`d`, the call right after `recordPreviewFilterExecutionDurationMS(d)` returns
`d`, and right after `resetLastPreviewFilterExecutionDurations()` it returns
0. -/
theorem last_duration_spec (K : Nat) (hK : 2 ≤ K) (w : List Int) (d : Int) :
    lastPreviewFilterExecutionDurationMS [] = 0
    ∧ (∀ (l : List Int) (x : Int), lastPreviewFilterExecutionDurationMS (l ++ [x]) = x)
    ∧ (∃ w1, recordPreviewFilterExecutionDurationMS K w d = some w1
        ∧ lastPreviewFilterExecutionDurationMS w1 = d)
    ∧ lastPreviewFilterExecutionDurationMS (resetLastPreviewFilterExecutionDurations w) = 0 := by
  have hlast : ∀ (l : List Int) (x : Int), lastPreviewFilterExecutionDurationMS (l ++ [x]) = x := by
    intro l x
    simp [lastPreviewFilterExecutionDurationMS, List.getLast?_concat]
  refine ⟨rfl, hlast, ?_, rfl⟩
  refine ⟨_, evictWhileFull_eq_drop K (by omega) (w ++ [d]), ?_⟩
  have hle : (w ++ [d]).length - (K - 1) ≤ w.length := by
    simp only [List.length_append, List.length_singleton]
    omega
  rw [List.drop_append_of_le_length hle]
  exact hlast _ d

/-- Instance of C12: capacity 2, window 10 and duration 25. -/
theorem last_duration_spec_witness :
    2 ≤ 2
    ∧ (recordPreviewFilterExecutionDurationMS 2 [10] 25).map lastPreviewFilterExecutionDurationMS
        = some 25
    ∧ ∃ w1, recordPreviewFilterExecutionDurationMS 2 [10] 25 = some w1
        ∧ lastPreviewFilterExecutionDurationMS w1 = 25 :=
  ⟨by decide, by decide, (last_duration_spec 2 (by decide) [10] 25).2.2.1⟩

theorem sum_bounds (lo hi : Int) (w : List Int) (h : ∀ x ∈ w, lo ≤ x ∧ x ≤ hi) :
    lo * w.length ≤ w.sum ∧ w.sum ≤ hi * w.length := by
  induction w with
  | nil => simp
  | cons x rest ih =>
    have h1 := h x (List.mem_cons_self x rest)
    have h2 := ih (fun y hy => h y (List.mem_cons_of_mem x hy))
    simp only [List.sum_cons, List.length_cons, Nat.cast_add, Nat.cast_one]
    constructor
    · have : lo * ((rest.length : Int) + 1) = lo * rest.length + lo := by ring
      omega
    · have : hi * ((rest.length : Int) + 1) = hi * rest.length + hi := by ring
      omega

theorem tmod_of_neg (a b : Int) : Int.tmod (-a) b = -(Int.tmod a b) := by
  rw [Int.tmod_def, Int.tmod_def, Int.neg_tdiv]
  ring

theorem tdiv_bounds (lo hi a n : Int) (hn : 0 < n) (h1 : lo * n ≤ a) (h2 : a ≤ hi * n) :
    lo ≤ Int.tdiv a n ∧ Int.tdiv a n ≤ hi := by
  rcases Int.le_total 0 a with ha | ha
  · rw [Int.tdiv_eq_ediv ha (Int.le_of_lt hn)]
    exact ⟨Int.le_ediv_of_mul_le hn h1, Int.ediv_le_of_le_mul hn h2⟩
  · have hneg : Int.tdiv a n = -((-a) / n) := by
      have h3 : Int.tdiv (-a) n = (-a) / n :=
        Int.tdiv_eq_ediv (by omega) (Int.le_of_lt hn)
      rw [← h3, Int.neg_tdiv, Int.neg_neg]
    rw [hneg]
    have h4 : (-a) / n ≤ -lo := Int.ediv_le_of_le_mul hn (by
      have : -lo * n = -(lo * n) := by ring
      omega)
    have h5 : -hi ≤ (-a) / n := Int.le_ediv_of_mul_le hn (by
      have : -hi * n = -(hi * n) := by ring
      omega)
    constructor <;> omega

/-- C13: `averagePreviewFilterExecutionDuration()` is 0 on the empty window;
on a non-empty window it is the sum of the entries divided by their count and
truncated toward zero (the count times the result differs from the sum by a
remainder smaller than the count and of the sign of the sum), and it lies
between every lower and every upper bound of the entries, so between their
minimum and maximum. -/
theorem average_spec (w : List Int) :
    averagePreviewFilterExecutionDuration [] = 0
    ∧ (w ≠ [] →
        averagePreviewFilterExecutionDuration w = Int.tdiv w.sum w.length
        ∧ (∃ r : Int, w.sum = w.length * averagePreviewFilterExecutionDuration w + r
            ∧ r.natAbs < w.length ∧ (0 ≤ w.sum → 0 ≤ r) ∧ (w.sum ≤ 0 → r ≤ 0))
        ∧ (∀ lo hi : Int, (∀ x ∈ w, lo ≤ x ∧ x ≤ hi) →
            lo ≤ averagePreviewFilterExecutionDuration w
            ∧ averagePreviewFilterExecutionDuration w ≤ hi)) := by
  refine ⟨rfl, ?_⟩
  intro hw
  have hlen : 0 < w.length := List.length_pos.2 hw
  have hlenI : (0 : Int) < (w.length : Int) := by exact_mod_cast hlen
  have hdef : averagePreviewFilterExecutionDuration w = Int.tdiv w.sum w.length := by
    simp [averagePreviewFilterExecutionDuration, hw]
  refine ⟨hdef, ?_, ?_⟩
  · refine ⟨Int.tmod w.sum w.length, ?_, ?_, ?_, ?_⟩
    · rw [hdef]; exact (Int.tdiv_add_tmod w.sum w.length).symm
    · have h1 : Int.tmod w.sum w.length < w.length := Int.tmod_lt_of_pos _ hlenI
      have h2 : -(w.length : Int) < Int.tmod w.sum w.length := by
        have h3 : Int.tmod (-w.sum) w.length < w.length := Int.tmod_lt_of_pos _ hlenI
        rw [tmod_of_neg] at h3
        omega
      omega
    · intro h0; exact Int.tmod_nonneg _ h0
    · intro h0
      have h3 : 0 ≤ Int.tmod (-w.sum) w.length := Int.tmod_nonneg _ (by omega)
      rw [tmod_of_neg] at h3
      omega
  · intro lo hi hb
    rw [hdef]
    have hs := sum_bounds lo hi w hb
    exact tdiv_bounds lo hi w.sum w.length hlenI hs.1 hs.2

/-- Instance of C13: the window -7, 2, 3 has sum -2 and average 0, between -7
and 3. -/
theorem average_spec_witness :
    ([-7, 2, 3] : List Int) ≠ []
    ∧ averagePreviewFilterExecutionDuration [-7, 2, 3] = 0
    ∧ averagePreviewFilterExecutionDuration [-7, 2, 3]
        = Int.tdiv ([-7, 2, 3] : List Int).sum ([-7, 2, 3] : List Int).length :=
  ⟨by decide, by decide, ((average_spec [-7, 2, 3]).2 (by decide)).1⟩

namespace GmicProcessor

/-! ## The completion slots, case by case -/

@[simp] theorem updateThread_previewImage (s : GmicProcessor) (p : Nat)
    (f : FilterThread → FilterThread) : (updateThread s p f)._previewImage = s._previewImage := by
  unfold updateThread; split <;> rfl

@[simp] theorem updateThread_visibility (s : GmicProcessor) (p : Nat)
    (f : FilterThread → FilterThread) :
    (updateThread s p f)._parametersVisibilityStates = s._parametersVisibilityStates := by
  unfold updateThread; split <;> rfl

@[simp] theorem updateThread_appliedStatus (s : GmicProcessor) (p : Nat)
    (f : FilterThread → FilterThread) :
    (updateThread s p f)._lastAppliedCommandGmicStatus = s._lastAppliedCommandGmicStatus := by
  unfold updateThread; split <;> rfl

@[simp] theorem updateThread_quoted (s : GmicProcessor) (p : Nat)
    (f : FilterThread → FilterThread) :
    (updateThread s p f)._gmicStatusQuotedParameters = s._gmicStatusQuotedParameters := by
  unfold updateThread; split <;> rfl

/-- The interactive-preview slot on a job that is still running does nothing. -/
theorem preview_running (ext : Externals) (s : GmicProcessor) (p : Nat) (t : FilterThread)
    (elapsed : Int) (hp : s._filterThread = some p) (ht : s.threads[p]? = some t)
    (hrun : t.running = true) : onPreviewThreadFinished ext s elapsed = some (s, []) := by
  simp only [onPreviewThreadFinished, hp, ht, hrun, if_true]

/-- The full-apply slot on a job that is still running does nothing. -/
theorem apply_running (ext : Externals) (s : GmicProcessor) (p : Nat) (t : FilterThread)
    (hp : s._filterThread = some p) (ht : s.threads[p]? = some t)
    (hc : t.abortRequested = false) (hrun : t.running = true) :
    onApplyThreadFinished ext s = some (s, []) := by
  simp [onApplyThreadFinished, hp, ht, hrun, hc]

/-- A finished interactive preview with a valid result: the slot records the
elapsed time, builds the preview raster and emits `previewImageAvailable`. -/
theorem preview_success (ext : Externals) (s : GmicProcessor) (p : Nat) (t : FilterThread)
    (elapsed : Int) (hK : 0 < ext.KEYPOINTS_INTERACTIVE_AVERAGING_COUNT)
    (hp : s._filterThread = some p) (ht : s.threads[p]? = some t)
    (hrun : t.running = false) (hf : t.failed = false)
    (hb : checkImageSpectrumAtMost4 t.images = none) :
    ∃ r, onPreviewThreadFinished ext s elapsed = some r
      ∧ recordPreviewFilterExecutionDurationMS ext.KEYPOINTS_INTERACTIVE_AVERAGING_COUNT
          s._lastFilterPreviewExecutionDurations elapsed
        = some r.1._lastFilterPreviewExecutionDurations
      ∧ r.2 = [Effect.setWaiting false, Effect.previewImageAvailable]
      ∧ r.1._previewImage = ext.buildPreviewImage
          (t.images.map ext.gmic_qt_apply_color_profile) s._previewImage
          s._filterContext.inputOutputState.previewMode s._filterContext.previewWidth
          s._filterContext.previewHeight
      ∧ r.1._gmicStatus = t.gmicStatus
      ∧ r.1._parametersVisibilityStates = t.parametersVisibilityStates
      ∧ r.1._gmicImages = t.images.map ext.gmic_qt_apply_color_profile
      ∧ r.1._filterThread = none
      ∧ r.1.timerActive = false ∧ r.1.overrideCursorWaiting = false
      ∧ r.1._lastAppliedCommand = s._lastAppliedCommand := by
  obtain ⟨w, hw⟩ := record_isSome _ hK s._lastFilterPreviewExecutionDurations elapsed
  simp only [onPreviewThreadFinished, hp, ht, hrun, hf, hideWaitingCursor]
  simp [hb, hw]

/-- A finished interactive preview that failed or whose result is rejected:
the slot leaves the preview raster and the telemetry window alone and emits
only the failure. -/
theorem preview_rejected (ext : Externals) (s : GmicProcessor) (p : Nat) (t : FilterThread)
    (elapsed : Int) (hp : s._filterThread = some p) (ht : s.threads[p]? = some t)
    (hrun : t.running = false)
    (hbad : t.failed = true ∨ checkImageSpectrumAtMost4 t.images ≠ none) :
    ∃ r message, onPreviewThreadFinished ext s elapsed = some r
      ∧ r.1._lastFilterPreviewExecutionDurations = s._lastFilterPreviewExecutionDurations
      ∧ r.1._previewImage = s._previewImage
      ∧ r.2 = [Effect.setWaiting false, Effect.previewCommandFailed message]
      ∧ message = (if t.failed then t.errorMessage
          else previewSpectrumMessage ((checkImageSpectrumAtMost4 t.images).getD 0)
            (spectrumAt t.images ((checkImageSpectrumAtMost4 t.images).getD 0)))
      ∧ (t.failed = true → r.1._gmicStatus = [] ∧ r.1._parametersVisibilityStates = []
          ∧ r.1._gmicImages = [])
      ∧ r.1._filterThread = none
      ∧ r.1.timerActive = false ∧ r.1.overrideCursorWaiting = false
      ∧ r.1._lastAppliedCommand = s._lastAppliedCommand := by
  simp only [onPreviewThreadFinished, hp, ht, hrun, hideWaitingCursor]
  by_cases hf : t.failed = true
  · simp [hf]
  · have hb : checkImageSpectrumAtMost4 t.images ≠ none := by
      rcases hbad with h | h
      · exact absurd h hf
      · exact h
    cases hbi : checkImageSpectrumAtMost4 t.images with
    | none => exact absurd hbi hb
    | some i => simp [hf, hbi]

/-- What the full-apply slot does to the active slot, the busy indicator, the
telemetry window and the command of the record, on any finished job. -/
theorem apply_finished (ext : Externals) (s : GmicProcessor) (p : Nat) (t : FilterThread)
    (hp : s._filterThread = some p) (ht : s.threads[p]? = some t)
    (hc : t.abortRequested = false) (hrun : t.running = false) :
    ∃ r, onApplyThreadFinished ext s = some r
      ∧ r.1._lastFilterPreviewExecutionDurations = s._lastFilterPreviewExecutionDurations
      ∧ r.1._filterThread = none
      ∧ r.1.timerActive = false ∧ r.1.overrideCursorWaiting = false
      ∧ r.1._gmicStatus = t.gmicStatus
      ∧ r.1._parametersVisibilityStates = t.parametersVisibilityStates
      ∧ (r.1._lastAppliedCommand = s._lastAppliedCommand ∨ r.1._lastAppliedCommand = "") := by
  simp only [onApplyThreadFinished, hp, ht, hc, hrun, hideWaitingCursor]
  by_cases hf : t.failed = true
  · simp [hf]
  · cases hbi : checkImageSpectrumAtMost4 t.images with
    | none => simp [hf, hbi]
    | some i => simp [hf, hbi]

/-- The two completion slots fail exactly on a broken precondition; otherwise
the state they find has an active handle with a thread object. -/
theorem preview_returns_inv (ext : Externals) (s : GmicProcessor) (elapsed : Int)
    (r : GmicProcessor × List Effect) (h : onPreviewThreadFinished ext s elapsed = some r) :
    ∃ p t, s._filterThread = some p ∧ s.threads[p]? = some t := by
  unfold onPreviewThreadFinished at h
  split at h
  · cases h
  · rename_i p hp
    split at h
    · cases h
    · rename_i t ht
      exact ⟨p, t, hp, ht⟩

theorem apply_returns_inv (ext : Externals) (s : GmicProcessor)
    (r : GmicProcessor × List Effect) (h : onApplyThreadFinished ext s = some r) :
    ∃ p t, s._filterThread = some p ∧ s.threads[p]? = some t ∧ t.abortRequested = false := by
  unfold onApplyThreadFinished at h
  split at h
  · cases h
  · rename_i p hp
    split at h
    · cases h
    · rename_i t ht
      split at h
      · cases h
      · rename_i hc
        exact ⟨p, t, hp, ht, by simpa using hc⟩

/-- A synchronous `execute`: what it leaves in the coordinator. -/
theorem execute_sync (ext : Externals) (s : GmicProcessor) (inp : ExecuteInput)
    (r : GmicProcessor × List Effect)
    (hk : s._filterContext.requestType = RequestType.SynchronousPreviewProcessing)
    (h : execute ext s inp = some r) :
    recordPreviewFilterExecutionDurationMS ext.KEYPOINTS_INTERACTIVE_AVERAGING_COUNT
        s._lastFilterPreviewExecutionDurations inp.elapsed
      = some r.1._lastFilterPreviewExecutionDurations
    ∧ r.1._filterThread = s._filterThread
    ∧ r.1._unfinishedAbortedThreads = s._unfinishedAbortedThreads
    ∧ r.1.threads = s.threads
    ∧ r.1.timerActive = false ∧ r.1.overrideCursorWaiting = false
    ∧ r.1._lastAppliedCommand = s._lastAppliedCommand
    ∧ (inp.runner.failed = true →
        r.1._gmicStatus = [] ∧ r.1._gmicImages = []
        ∧ r.1._parametersVisibilityStates = s._parametersVisibilityStates
        ∧ r.1._previewImage = s._previewImage
        ∧ r.2 = [Effect.srandFresh,
            Effect.runnerRun s._filterContext.filterCommand s._filterContext.filterArguments
              (environment s._filterContext),
            Effect.setWaiting false, Effect.previewCommandFailed inp.runner.errorMessage])
    ∧ (inp.runner.failed = false →
        r.1._gmicStatus = inp.runner.gmicStatus
        ∧ r.1._parametersVisibilityStates = inp.runner.parametersVisibilityStates
        ∧ r.1._gmicImages = inp.runner.images.map ext.gmic_qt_apply_color_profile
        ∧ r.1._previewImage = ext.buildPreviewImage
            (inp.runner.images.map ext.gmic_qt_apply_color_profile) s._previewImage
            s._filterContext.inputOutputState.previewMode s._filterContext.previewWidth
            s._filterContext.previewHeight
        ∧ r.2 = [Effect.srandFresh,
            Effect.runnerRun s._filterContext.filterCommand s._filterContext.filterArguments
              (environment s._filterContext),
            Effect.setWaiting false, Effect.previewImageAvailable]) := by
  simp only [execute, hk] at h
  by_cases hf : inp.runner.failed = true
  · simp only [manageSynchonousRunner, hideWaitingCursor, hf, if_true] at h
    split at h
    · cases h
    · rename_i w hw
      simp only [Option.some.injEq] at h
      subst h
      simp [hw, hf]
  · simp only [manageSynchonousRunner, hideWaitingCursor, hf] at h
    split at h
    · cases h
    · rename_i w hw
      simp only [Option.some.injEq] at h
      subst h
      simp at hw
      simp [hw, hf]

/-- A background `execute`: what it leaves alone. -/
theorem execute_background_frame (ext : Externals) (s : GmicProcessor) (inp : ExecuteInput)
    (r : GmicProcessor × List Effect)
    (hk : s._filterContext.requestType ≠ RequestType.SynchronousPreviewProcessing)
    (h : execute ext s inp = some r) :
    r.1._lastFilterPreviewExecutionDurations = s._lastFilterPreviewExecutionDurations
    ∧ r.1.overrideCursorWaiting = s.overrideCursorWaiting
    ∧ r.1.timerActive = true
    ∧ r.1._filterThread = some s.threads.length
    ∧ (s._filterContext.requestType = RequestType.PreviewProcessing →
        r.1._lastAppliedCommand = s._lastAppliedCommand)
    ∧ (s._filterContext.requestType = RequestType.FullImageProcessing →
        r.1._lastAppliedCommand = s._filterContext.filterCommand
        ∧ r.1._lastAppliedFilterHash = s._filterContext.filterHash
        ∧ r.1._lastAppliedFilterPath = s._filterContext.filterFullPath
        ∧ r.1._lastAppliedCommandArguments = s._filterContext.filterArguments
        ∧ r.1._lastAppliedCommandInOutState = s._filterContext.inputOutputState
        ∧ r.1._lastAppliedCommandGmicStatus = s._lastAppliedCommandGmicStatus
        ∧ r.1._gmicStatusQuotedParameters = s._gmicStatusQuotedParameters) := by
  cases hkind : s._filterContext.requestType with
  | SynchronousPreviewProcessing => exact absurd hkind hk
  | PreviewProcessing =>
    simp only [execute, hkind, Option.some.injEq] at h
    subst h
    simp
  | FullImageProcessing =>
    simp only [execute, hkind, Option.some.injEq] at h
    subst h
    simp

/-- The state `onAbortedThreadFinished` leaves for a retiring handle: the
retiring set without it and the thread object marked for deletion. -/
theorem aborted_state (s : GmicProcessor) (p : Nat) (hmem : p ∈ s._unfinishedAbortedThreads) :
    (onAbortedThreadFinished s (some p)).1
      = { s with
          _unfinishedAbortedThreads := s._unfinishedAbortedThreads.erase p
          threads := (updateThread s p (fun t => { t with deleteLaterCalled := true })).threads }
    := by
  simp only [onAbortedThreadFinished, hmem, if_true]
  unfold updateThread
  cases s.threads[p]? <;> rfl

theorem execute_sync_returns (ext : Externals) (s : GmicProcessor) (inp : ExecuteInput)
    (hK : 0 < ext.KEYPOINTS_INTERACTIVE_AVERAGING_COUNT)
    (hk : s._filterContext.requestType = RequestType.SynchronousPreviewProcessing) :
    ∃ r, execute ext s inp = some r := by
  obtain ⟨w, hw⟩ := record_isSome _ hK
    (manageSynchonousRunner ext
      { s with _gmicImages := [], timerActive := true,
               _previewRandomSeed := inp.rand } inp.runner).1._lastFilterPreviewExecutionDurations
    inp.elapsed
  simp only [execute, hk]
  simp only [hw]
  exact ⟨_, rfl⟩

theorem abort_frame (s : GmicProcessor) :
    (abortCurrentFilterThread s).1._lastFilterPreviewExecutionDurations
        = s._lastFilterPreviewExecutionDurations
    ∧ (abortCurrentFilterThread s).1._lastAppliedCommand = s._lastAppliedCommand := by
  unfold abortCurrentFilterThread
  split <;> simp

theorem aborted_frame (s : GmicProcessor) (sender : Option Nat) :
    (onAbortedThreadFinished s sender).1._lastFilterPreviewExecutionDurations
        = s._lastFilterPreviewExecutionDurations
    ∧ (onAbortedThreadFinished s sender).1._lastAppliedCommand = s._lastAppliedCommand
    ∧ (onAbortedThreadFinished s sender).1._filterThread = s._filterThread
    ∧ (onAbortedThreadFinished s sender).1.overrideCursorWaiting = s.overrideCursorWaiting
    ∧ (onAbortedThreadFinished s sender).1.timerActive = s.timerActive := by
  unfold onAbortedThreadFinished
  cases sender with
  | none => simp
  | some p =>
    simp only
    split <;> simp

theorem timer_frame (s : GmicProcessor) :
    (timerTimeout s).1._lastFilterPreviewExecutionDurations
        = s._lastFilterPreviewExecutionDurations
    ∧ (timerTimeout s).1._lastAppliedCommand = s._lastAppliedCommand
    ∧ (timerTimeout s).1._filterThread = s._filterThread := by
  unfold timerTimeout showWaitingCursor
  split
  · split <;> simp
  · simp

/-! ## Telemetry window: who writes it -/

/-- The claim C14 fails as stated: a synchronous-preview `execute` on a fresh
coordinator changes the telemetry window from empty to the elapsed time. -/
theorem sync_execute_records_counterexample :
    (sampleProcessor RequestType.SynchronousPreviewProcessing
        )._lastFilterPreviewExecutionDurations = []
    ∧ (execute sampleExternals (sampleProcessor RequestType.SynchronousPreviewProcessing)
        (sampleInput 9)).map (fun r => r.1._lastFilterPreviewExecutionDurations)
      = some [12] := by
  decide

/-- C14, amended: for every coordinator state, idle or with a job in the
active slot, the telemetry window is written by a successful, valid
interactive-preview completion and by every synchronous-preview `execute()`
(failed or not), each time with the window that recording the elapsed time
gives; `execute()` with an interactive-preview or full-apply descriptor, every
failed, invalid or still-running interactive completion, every full-apply
completion, `cancel()`, `init()`, retirement, `setContext` and the timer leave
it unchanged. -/
theorem telemetry_window_writers (ext : Externals) (s : GmicProcessor) (elapsed : Int)
    (inp : ExecuteInput) (sender : Option Nat) (context : FilterContext)
    (hK : 0 < ext.KEYPOINTS_INTERACTIVE_AVERAGING_COUNT) :
    (∀ p t, s._filterThread = some p → s.threads[p]? = some t →
      t.running = false → t.failed = false → (∀ img ∈ t.images, img.spectrum ≤ 4) →
      ∃ r, onPreviewThreadFinished ext s elapsed = some r
        ∧ recordPreviewFilterExecutionDurationMS ext.KEYPOINTS_INTERACTIVE_AVERAGING_COUNT
            s._lastFilterPreviewExecutionDurations elapsed
          = some r.1._lastFilterPreviewExecutionDurations)
    ∧ (∀ p t, s._filterThread = some p → s.threads[p]? = some t →
      (t.running = true ∨ t.failed = true ∨ ∃ img ∈ t.images, img.spectrum > 4) →
      ∃ r, onPreviewThreadFinished ext s elapsed = some r
        ∧ r.1._lastFilterPreviewExecutionDurations = s._lastFilterPreviewExecutionDurations)
    ∧ (s._filterContext.requestType = RequestType.SynchronousPreviewProcessing →
      ∃ r, execute ext s inp = some r
        ∧ recordPreviewFilterExecutionDurationMS ext.KEYPOINTS_INTERACTIVE_AVERAGING_COUNT
            s._lastFilterPreviewExecutionDurations inp.elapsed
          = some r.1._lastFilterPreviewExecutionDurations)
    ∧ (s._filterContext.requestType ≠ RequestType.SynchronousPreviewProcessing →
      ∃ r, execute ext s inp = some r
        ∧ r.1._lastFilterPreviewExecutionDurations = s._lastFilterPreviewExecutionDurations)
    ∧ (∀ p t, s._filterThread = some p → s.threads[p]? = some t →
      t.abortRequested = false →
      ∃ r, onApplyThreadFinished ext s = some r
        ∧ r.1._lastFilterPreviewExecutionDurations = s._lastFilterPreviewExecutionDurations)
    ∧ (∀ r, onApplyThreadFinished ext s = some r →
        r.1._lastFilterPreviewExecutionDurations = s._lastFilterPreviewExecutionDurations)
    ∧ (cancel s).1._lastFilterPreviewExecutionDurations = s._lastFilterPreviewExecutionDurations
    ∧ (init s).1._lastFilterPreviewExecutionDurations = s._lastFilterPreviewExecutionDurations
    ∧ (onAbortedThreadFinished s sender).1._lastFilterPreviewExecutionDurations
        = s._lastFilterPreviewExecutionDurations
    ∧ (setContext s context)._lastFilterPreviewExecutionDurations
        = s._lastFilterPreviewExecutionDurations
    ∧ (timerTimeout s).1._lastFilterPreviewExecutionDurations
        = s._lastFilterPreviewExecutionDurations := by
  have happly : ∀ p t, s._filterThread = some p → s.threads[p]? = some t →
      t.abortRequested = false →
      ∃ r, onApplyThreadFinished ext s = some r
        ∧ r.1._lastFilterPreviewExecutionDurations
          = s._lastFilterPreviewExecutionDurations := by
    intro p t hp ht hc
    by_cases hrun : t.running = true
    · exact ⟨_, apply_running ext s p t hp ht hc hrun, rfl⟩
    · obtain ⟨r, hr, hw, _⟩ := apply_finished ext s p t hp ht hc (by simpa using hrun)
      exact ⟨r, hr, hw⟩
  refine ⟨?_, ?_, ?_, ?_, happly, ?_, (abort_frame s).1, (abort_frame s).1,
    (aborted_frame s sender).1, rfl, (timer_frame s).1⟩
  · intro p t hp ht hrun hf hvalid
    obtain ⟨r, hr, hw, _⟩ := preview_success ext s p t elapsed hK hp ht hrun hf
      ((check_none_iff _).2 hvalid)
    exact ⟨r, hr, hw⟩
  · intro p t hp ht hcase
    by_cases hrun : t.running = true
    · exact ⟨_, preview_running ext s p t elapsed hp ht hrun, rfl⟩
    · have hbad : t.failed = true ∨ checkImageSpectrumAtMost4 t.images ≠ none := by
        rcases hcase with h | h | ⟨img, hmem, hgt⟩
        · exact absurd h hrun
        · exact Or.inl h
        · right
          intro hnone
          have := (check_none_iff _).1 hnone img hmem
          omega
      obtain ⟨r, _, hr, hw, _⟩ := preview_rejected ext s p t elapsed hp ht (by simpa using hrun)
        hbad
      exact ⟨r, hr, hw⟩
  · intro hk
    obtain ⟨r, hr⟩ := execute_sync_returns ext s inp hK hk
    exact ⟨r, hr, (execute_sync ext s inp r hk hr).1⟩
  · intro hk
    obtain ⟨r, _, hr, _⟩ := execute_background ext s inp hk
    exact ⟨r, hr, (execute_background_frame ext s inp r hk hr).1⟩
  · intro r hr
    obtain ⟨p, t, hp, ht, hc⟩ := apply_returns_inv ext s r hr
    obtain ⟨r1, hr1, hw⟩ := happly p t hp ht hc
    rw [hr1] at hr
    simp only [Option.some.injEq] at hr
    subst hr
    exact hw

/-- Instance of the amended C14: on an idle, freshly constructed coordinator a
synchronous-preview `execute()` records its elapsed time 12 and `cancel()`
leaves the window alone; on a coordinator with a finished valid interactive
preview the slot records the elapsed time 12. -/
theorem telemetry_window_writers_witness :
    (0 < sampleExternals.KEYPOINTS_INTERACTIVE_AVERAGING_COUNT
      ∧ (sampleProcessor RequestType.SynchronousPreviewProcessing)._filterThread = none
      ∧ (sampleProcessor RequestType.SynchronousPreviewProcessing)._filterContext.requestType
          = RequestType.SynchronousPreviewProcessing)
    ∧ (∃ r, execute sampleExternals (sampleProcessor RequestType.SynchronousPreviewProcessing)
          (sampleInput 9) = some r
        ∧ recordPreviewFilterExecutionDurationMS
            sampleExternals.KEYPOINTS_INTERACTIVE_AVERAGING_COUNT
            (sampleProcessor RequestType.SynchronousPreviewProcessing
              )._lastFilterPreviewExecutionDurations (sampleInput 9).elapsed
          = some r.1._lastFilterPreviewExecutionDurations)
    ∧ (cancel (sampleProcessor RequestType.SynchronousPreviewProcessing)
        ).1._lastFilterPreviewExecutionDurations
      = (sampleProcessor RequestType.SynchronousPreviewProcessing
        )._lastFilterPreviewExecutionDurations
    ∧ (onPreviewThreadFinished sampleExternals
        (sampleFinished RequestType.PreviewProcessing (sampleOutcome [sampleImage 3])) 12).map
        (fun r => r.1._lastFilterPreviewExecutionDurations) = some [12]
    ∧ (∃ r, onPreviewThreadFinished sampleExternals
          (sampleFinished RequestType.PreviewProcessing (sampleOutcome [sampleImage 3])) 12
          = some r
        ∧ recordPreviewFilterExecutionDurationMS
            sampleExternals.KEYPOINTS_INTERACTIVE_AVERAGING_COUNT
            (sampleFinished RequestType.PreviewProcessing
              (sampleOutcome [sampleImage 3]))._lastFilterPreviewExecutionDurations 12
          = some r.1._lastFilterPreviewExecutionDurations) :=
  ⟨⟨by decide, rfl, rfl⟩,
    (telemetry_window_writers sampleExternals
      (sampleProcessor RequestType.SynchronousPreviewProcessing) 12 (sampleInput 9) none
      (sampleContext RequestType.PreviewProcessing) (by decide)).2.2.1 rfl,
    (telemetry_window_writers sampleExternals
      (sampleProcessor RequestType.SynchronousPreviewProcessing) 12 (sampleInput 9) none
      (sampleContext RequestType.PreviewProcessing) (by decide)).2.2.2.2.2.2.1,
    by decide,
    (telemetry_window_writers sampleExternals
      (sampleFinished RequestType.PreviewProcessing (sampleOutcome [sampleImage 3])) 12
      (sampleInput 9) none (sampleContext RequestType.PreviewProcessing) (by decide)).1 0
      (threadAt (sampleFinished RequestType.PreviewProcessing (sampleOutcome [sampleImage 3])) 0)
      rfl rfl rfl rfl (by decide)⟩

/-! ## Persistence of the Last-Applied Record -/

/-- What the interactive-preview slot leaves alone, whatever the outcome: the
command of the record; and it either changes nothing or empties the active
slot, stops the timer and hides the busy indicator. -/
theorem onPreviewThreadFinished_frame (ext : Externals) (s : GmicProcessor) (elapsed : Int)
    (r : GmicProcessor × List Effect) (h : onPreviewThreadFinished ext s elapsed = some r) :
    r.1._lastAppliedCommand = s._lastAppliedCommand
    ∧ (r.1 = s ∨ (r.1.timerActive = false ∧ r.1.overrideCursorWaiting = false)) := by
  unfold onPreviewThreadFinished at h
  simp only [hideWaitingCursor] at h
  split at h
  · cases h
  · split at h
    · cases h
    · split at h
      · simp only [Option.some.injEq] at h; subst h
        exact ⟨rfl, Or.inl rfl⟩
      · split at h
        · simp only [Option.some.injEq] at h; subst h
          exact ⟨by simp, Or.inr ⟨rfl, rfl⟩⟩
        · split at h
          · split at h
            · cases h
            · simp only [Option.some.injEq] at h; subst h
              exact ⟨by simp, Or.inr ⟨rfl, rfl⟩⟩
          · simp only [Option.some.injEq] at h; subst h
            exact ⟨by simp, Or.inr ⟨rfl, rfl⟩⟩

theorem onApplyThreadFinished_command (ext : Externals) (s : GmicProcessor)
    (r : GmicProcessor × List Effect) (h : onApplyThreadFinished ext s = some r)
    (hempty : s._lastAppliedCommand = "") : r.1._lastAppliedCommand = "" := by
  obtain ⟨p, t, hp, ht, hc⟩ := apply_returns_inv ext s r h
  by_cases hrun : t.running = true
  · rw [apply_running ext s p t hp ht hc hrun] at h
    simp only [Option.some.injEq] at h
    subst h
    exact hempty
  · obtain ⟨r1, hr1, _, _, _, _, _, _, hcmd⟩ :=
      apply_finished ext s p t hp ht hc (by simpa using hrun)
    rw [hr1] at h
    simp only [Option.some.injEq] at h
    subst h
    rcases hcmd with h1 | h1
    · rw [h1, hempty]
    · exact h1

theorem step_command (ext : Externals) (s : GmicProcessor) (e : Event)
    (r : GmicProcessor × List Effect) (h : step ext s e = some r)
    (hno : isFullApplyDispatch s e = false) (hempty : s._lastAppliedCommand = "") :
    r.1._lastAppliedCommand = "" := by
  cases e with
  | setContext c =>
    simp only [step, Option.some.injEq] at h; subst h; exact hempty
  | execute inp =>
    simp only [step] at h
    have hk : s._filterContext.requestType ≠ RequestType.FullImageProcessing := by
      simpa [isFullApplyDispatch] using hno
    cases hkind : s._filterContext.requestType with
    | FullImageProcessing => exact absurd hkind hk
    | SynchronousPreviewProcessing =>
      rw [(execute_sync ext s inp r hkind h).2.2.2.2.2.2.1, hempty]
    | PreviewProcessing =>
      have hk1 : s._filterContext.requestType ≠ RequestType.SynchronousPreviewProcessing := by
        rw [hkind]; decide
      rw [(execute_background_frame ext s inp r hk1 h).2.2.2.2.1 hkind, hempty]
  | cancel =>
    simp only [step, Option.some.injEq] at h; subst h
    exact ((abort_frame s).2).trans hempty
  | init =>
    simp only [step, Option.some.injEq] at h; subst h
    exact ((abort_frame s).2).trans hempty
  | threadReturns p o =>
    simp only [step, Option.some.injEq] at h; subst h
    simp [threadReturns, hempty]
  | previewThreadFinished elapsed =>
    rw [(onPreviewThreadFinished_frame ext s elapsed r h).1, hempty]
  | applyThreadFinished => exact onApplyThreadFinished_command ext s r h hempty
  | abortedThreadFinished sender =>
    simp only [step, Option.some.injEq] at h; subst h
    exact ((aborted_frame s sender).2.1).trans hempty
  | timerTimeout =>
    simp only [step, Option.some.injEq] at h; subst h
    exact ((timer_frame s).2.1).trans hempty

theorem run_command (ext : Externals) (events : List Event) :
    ∀ (s : GmicProcessor) (r : GmicProcessor × List Effect), run ext s events = some r →
      noFullApplyDispatch ext s events = true → s._lastAppliedCommand = "" →
      r.1._lastAppliedCommand = "" := by
  induction events with
  | nil =>
    intro s r h _ hempty
    simp only [run, Option.some.injEq] at h; subst h
    exact hempty
  | cons e rest ih =>
    intro s r h hno hempty
    simp only [run] at h
    simp only [noFullApplyDispatch, Bool.and_eq_true, Bool.not_eq_true'] at hno
    cases hstep : step ext s e with
    | none => simp [hstep] at h
    | some r1 =>
      obtain ⟨s1, eff1⟩ := r1
      simp only [hstep] at h hno
      cases hrest : run ext s1 rest with
      | none => simp [hrest] at h
      | some r2 =>
        obtain ⟨s2, eff2⟩ := r2
        simp only [hrest, Option.some.injEq] at h
        subst h
        exact ih s1 (s2, eff2) hrest hno.2 (step_command ext s e (s1, eff1) hstep hno.1 hempty)

theorem saveSettings_of_empty (host : String) (s : GmicProcessor)
    (h : s._lastAppliedCommand = "") : saveSettings host s = emptyLastExecution host := by
  simp [saveSettings, emptyLastExecution, h]

/-- The claim C15 fails as stated: with a full-apply of the sample descriptor
dispatched and still running, and also after it has been cancelled, no
full-apply has completed, yet `saveSettings` writes the dispatched command. -/
theorem pending_apply_is_saved_counterexample :
    (run sampleExternals (sampleProcessor RequestType.FullImageProcessing)
        [Event.execute (sampleInput 9)]).map
        (fun r => (r.1._completeFullImageProcessingCount, saveSettings "gimp" r.1))
      = some (0,
        [("LastExecution/host_gimp/FilterPath", QVariant.string "/Blur"),
         ("LastExecution/host_gimp/FilterHash", QVariant.string "h1"),
         ("LastExecution/host_gimp/Command", QVariant.string "blur"),
         ("LastExecution/host_gimp/Arguments", QVariant.string "3"),
         ("LastExecution/host_gimp/GmicStatus", QVariant.stringList []),
         ("LastExecution/host_gimp/QuotedParameters", QVariant.string ""),
         ("LastExecution/host_gimp/InputMode", QVariant.int 1),
         ("LastExecution/host_gimp/OutputMode", QVariant.int 0),
         ("LastExecution/host_gimp/PreviewMode", QVariant.int 0)])
    ∧ (run sampleExternals (sampleProcessor RequestType.FullImageProcessing)
        [Event.execute (sampleInput 9), Event.cancel]).map
        (fun r => (saveSettings "gimp" r.1).take 3)
      = some
        [("LastExecution/host_gimp/FilterPath", QVariant.string "/Blur"),
         ("LastExecution/host_gimp/FilterHash", QVariant.string "h1"),
         ("LastExecution/host_gimp/Command", QVariant.string "blur")] := by
  decide

/-- C15, amended: `saveSettings` writes the empty string, the empty list and 0
for the nine LastExecution keys whenever the command of the record is empty:
in every state reachable from the constructed coordinator without a full-apply
dispatch, and after a dispatched full-apply has completed with an engine
failure or an invalid result. After a full-apply with a non-empty command has
been dispatched, while it is still running and also after it has been
cancelled, `saveSettings` writes the path, hash, command, arguments and modes
of the dispatched descriptor. -/
theorem save_settings_record (ext : Externals) (host : String) (context : FilterContext)
    (unspecified : InputOutputState) (rand : Nat) (events : List Event)
    (r : GmicProcessor × List Effect) (s : GmicProcessor) (D D1 : FilterContext)
    (inp : ExecuteInput) (o : ThreadOutcome)
    (hrun : run ext (create context unspecified rand) events = some r)
    (hno : noFullApplyDispatch ext (create context unspecified rand) events = true)
    (hD : D.requestType = RequestType.FullImageProcessing) :
    saveSettings host r.1 = emptyLastExecution host
    ∧ ((o.failed = true ∨ ∃ img ∈ o.images, img.spectrum > 4) →
        ∃ r1 r2, execute ext (setContext s D) inp = some r1
          ∧ onApplyThreadFinished ext (setContext (threadReturns r1.1 s.threads.length o) D1)
              = some r2
          ∧ saveSettings host r2.1 = emptyLastExecution host)
    ∧ (D.filterCommand ≠ "" →
        ∃ r1, execute ext (setContext s D) inp = some r1
          ∧ saveSettings host r1.1 = saveSettings host (cancel r1.1).1
          ∧ saveSettings host r1.1 =
            [(lastExecutionKey host "FilterPath", QVariant.string D.filterFullPath),
             (lastExecutionKey host "FilterHash", QVariant.string D.filterHash),
             (lastExecutionKey host "Command", QVariant.string D.filterCommand),
             (lastExecutionKey host "Arguments", QVariant.string D.filterArguments),
             (lastExecutionKey host "GmicStatus",
               QVariant.stringList s._lastAppliedCommandGmicStatus),
             (lastExecutionKey host "QuotedParameters",
               QVariant.string s._gmicStatusQuotedParameters),
             (lastExecutionKey host "InputMode", QVariant.int D.inputOutputState.inputMode),
             (lastExecutionKey host "OutputMode", QVariant.int D.inputOutputState.outputMode),
             (lastExecutionKey host "PreviewMode",
               QVariant.int D.inputOutputState.previewMode)]) := by
  refine ⟨?_, ?_, ?_⟩
  · exact saveSettings_of_empty host r.1 (run_command ext events _ r hrun hno rfl)
  · intro hbad
    obtain ⟨r1, t, hr1, hact, hthr, hab, hrun1, hfail, _, himg, _⟩ :=
      dispatch_then_return ext s D D1 inp o hD
    have hb : t.failed = true ∨ checkImageSpectrumAtMost4 t.images ≠ none := by
      rcases hbad with h | ⟨img, hmem, hgt⟩
      · left; rw [hfail, h]
      · right
        rw [himg]
        intro hnone
        have := (check_none_iff _).1 hnone img hmem
        omega
    obtain ⟨r2, _, hr2, _, _, g2, _⟩ := apply_rejected ext _ _ t hact hthr hab hrun1 hb
    exact ⟨r1, r2, hr1, hr2, saveSettings_of_empty host r2.1 g2⟩
  · intro hcmd
    have hk : (setContext s D)._filterContext.requestType
        = RequestType.FullImageProcessing := hD
    have hk1 : (setContext s D)._filterContext.requestType
        ≠ RequestType.SynchronousPreviewProcessing := by rw [hk]; decide
    obtain ⟨r1, _, hr1, _⟩ := execute_background ext (setContext s D) inp hk1
    obtain ⟨_, _, _, _, _, hfull⟩ := execute_background_frame ext (setContext s D) inp r1 hk1 hr1
    obtain ⟨c1, c2, c3, c4, c5, c6, c7⟩ := hfull hk
    have hsave : ∀ u : GmicProcessor, u._lastAppliedCommand = r1.1._lastAppliedCommand →
        u._lastAppliedFilterHash = r1.1._lastAppliedFilterHash →
        u._lastAppliedFilterPath = r1.1._lastAppliedFilterPath →
        u._lastAppliedCommandArguments = r1.1._lastAppliedCommandArguments →
        u._lastAppliedCommandInOutState = r1.1._lastAppliedCommandInOutState →
        u._lastAppliedCommandGmicStatus = r1.1._lastAppliedCommandGmicStatus →
        u._gmicStatusQuotedParameters = r1.1._gmicStatusQuotedParameters →
        saveSettings host u = saveSettings host r1.1 := by
      intro u h1 h2 h3 h4 h5 h6 h7
      simp only [saveSettings, h1, h2, h3, h4, h5, h6, h7]
    refine ⟨r1, hr1, ?_, ?_⟩
    · symm
      apply hsave
      all_goals (simp only [cancel, abortCurrentFilterThread]; split <;> simp)
    · have d1 : r1.1._lastAppliedCommand = D.filterCommand := c1
      have d2 : r1.1._lastAppliedFilterHash = D.filterHash := c2
      have d3 : r1.1._lastAppliedFilterPath = D.filterFullPath := c3
      have d4 : r1.1._lastAppliedCommandArguments = D.filterArguments := c4
      have d5 : r1.1._lastAppliedCommandInOutState = D.inputOutputState := c5
      have d6 : r1.1._lastAppliedCommandGmicStatus = s._lastAppliedCommandGmicStatus := c6
      have d7 : r1.1._gmicStatusQuotedParameters = s._gmicStatusQuotedParameters := c7
      simp only [saveSettings, d1, d2, d3, d4, d5, d6, d7, hcmd, if_false]

/-- Instance of the amended C15: a fresh coordinator that ran and finished an
interactive preview writes the nine empty values. -/
theorem save_settings_record_witness :
    (run sampleExternals (create (sampleContext RequestType.PreviewProcessing) ⟨100, 100, 100⟩ 7)
        [Event.execute (sampleInput 9), Event.threadReturns 0 (sampleOutcome [sampleImage 3]),
          Event.previewThreadFinished 12]
      = some (sampleRun RequestType.PreviewProcessing
        [Event.execute (sampleInput 9), Event.threadReturns 0 (sampleOutcome [sampleImage 3]),
          Event.previewThreadFinished 12])
      ∧ noFullApplyDispatch sampleExternals
          (create (sampleContext RequestType.PreviewProcessing) ⟨100, 100, 100⟩ 7)
          [Event.execute (sampleInput 9), Event.threadReturns 0 (sampleOutcome [sampleImage 3]),
            Event.previewThreadFinished 12] = true
      ∧ (sampleContext RequestType.FullImageProcessing).requestType
          = RequestType.FullImageProcessing)
    ∧ saveSettings "gimp" (sampleRun RequestType.PreviewProcessing
        [Event.execute (sampleInput 9), Event.threadReturns 0 (sampleOutcome [sampleImage 3]),
          Event.previewThreadFinished 12]).1 = emptyLastExecution "gimp" :=
  ⟨⟨by decide, by decide, rfl⟩,
    (save_settings_record sampleExternals "gimp" (sampleContext RequestType.PreviewProcessing)
      ⟨100, 100, 100⟩ 7
      [Event.execute (sampleInput 9), Event.threadReturns 0 (sampleOutcome [sampleImage 3]),
        Event.previewThreadFinished 12]
      (sampleRun RequestType.PreviewProcessing
        [Event.execute (sampleInput 9), Event.threadReturns 0 (sampleOutcome [sampleImage 3]),
          Event.previewThreadFinished 12])
      (sampleProcessor RequestType.PreviewProcessing)
      (sampleContext RequestType.FullImageProcessing)
      (sampleContext RequestType.PreviewProcessing) (sampleInput 9) sampleFailure
      (by decide) (by decide) rfl).1⟩

/-! ## Invalid and failed preview outcomes -/

/-- The interactive-preview slot on a result whose first image with more than
4 channels is at index `i`: it emits only `previewCommandFailed` citing `i` and
the channel count, and leaves the preview raster alone. -/
theorem invalid_preview_result_rejected (ext : Externals) (s : GmicProcessor) (p : Nat)
    (t : FilterThread) (elapsed : Int) (i : Nat) (img : CImg)
    (hp : s._filterThread = some p) (ht : s.threads[p]? = some t)
    (hrun : t.running = false) (hf : t.failed = false)
    (hi : t.images[i]? = some img) (hbad : img.spectrum > 4)
    (hfirst : ∀ j, j < i → spectrumAt t.images j ≤ 4) :
    ∃ r, onPreviewThreadFinished ext s elapsed = some r
      ∧ r.2 = [Effect.setWaiting false,
          Effect.previewCommandFailed (previewSpectrumMessage i img.spectrum)]
      ∧ r.1._previewImage = s._previewImage := by
  have hchk := check_first t.images i img hi hbad hfirst
  obtain ⟨r, message, hr, _, hprev, heff, hmsg, _⟩ :=
    preview_rejected ext s p t elapsed hp ht hrun (Or.inr (by rw [hchk]; simp))
  have hsp : spectrumAt t.images i = img.spectrum := by simp [spectrumAt, hi]
  have hm : message = previewSpectrumMessage i img.spectrum := by
    rw [hmsg, hchk]; simp [hf, hsp]
  subst hm
  exact ⟨r, hr, heff, hprev⟩

/-- C16, the code at a failing input: a synchronous preview whose engine run
succeeds with one 5-channel image. `manageSynchonousRunner` does not run the
validator: `execute` emits `previewImageAvailable`, no `previewCommandFailed`,
and replaces the preview raster, where the claim asks for the failure citing
index 0 and 5 channels and an unchanged raster. -/
theorem sync_preview_accepts_invalid_result :
    checkImageSpectrumAtMost4 [sampleImage 5] = some 0
    ∧ (sampleProcessor RequestType.SynchronousPreviewProcessing)._previewImage = CImg.empty
    ∧ (execute sampleExternals (sampleProcessor RequestType.SynchronousPreviewProcessing)
        (sampleInputWith ⟨false, "", ["1"], [1], [sampleImage 5]⟩)).map
        (fun r => (r.2, r.1._previewImage))
      = some ([Effect.srandFresh,
          Effect.runnerRun "blur" "3"
            (environment (sampleContext RequestType.SynchronousPreviewProcessing)),
          Effect.setWaiting false, Effect.previewImageAvailable], sampleImage 5) := by
  decide

/-- C17, the code at a failing input: a synchronous preview succeeds and
reports the visibility states `[1]`, then a second synchronous preview fails
in the engine. `manageSynchonousRunner` clears the status lines and the working
buffers but not `_parametersVisibilityStates`, which still holds `[1]`; the
failure carries the engine's message. -/
theorem sync_failure_keeps_visibility :
    (run sampleExternals (sampleProcessor RequestType.SynchronousPreviewProcessing)
        [Event.execute (sampleInput 9),
          Event.execute (sampleInputWith ⟨true, "unknown command", [], [], []⟩)]).map
        (fun r => (parametersVisibilityStates r.1, gmicStatus r.1, r.1._gmicImages,
          r.2.filter Effect.isOutcome))
      = some ([1], [], [],
          [Effect.previewImageAvailable, Effect.previewCommandFailed "unknown command"]) := by
  decide

/-! ## Retirement of a cancelled job -/

/-- C18: after `cancel()` of the active job `h` and `execute()` of a new
request, delivering the completion of `h` to `onAbortedThreadFinished` removes
`h` from the retiring set and marks its thread object for deletion, and
changes nothing else: every other thread object, the active slot, the working
buffers, status lines, parameter visibility, preview raster, telemetry window,
completed-apply counter, stored seed and Last-Applied Record are unchanged,
and no outcome notification is emitted. -/
theorem late_completion_isolated (ext : Externals) (s0 : GmicProcessor) (h : Nat)
    (t0 : FilterThread) (inp : ExecuteInput) (r : GmicProcessor × List Effect)
    (hh : s0._filterThread = some h) (ht : s0.threads[h]? = some t0)
    (hexec : execute ext (cancel s0).1 inp = some r) :
    h ∈ r.1._unfinishedAbortedThreads
    ∧ r.1._filterThread ≠ some h
    ∧ (∃ threads1,
        (onAbortedThreadFinished r.1 (some h)).1
          = { r.1 with
              _unfinishedAbortedThreads := r.1._unfinishedAbortedThreads.erase h
              threads := threads1 }
        ∧ threads1.length = r.1.threads.length
        ∧ (∀ q, q ≠ h → threads1[q]? = r.1.threads[q]?)
        ∧ threads1[h]? = (r.1.threads[h]?).map (fun t => { t with deleteLaterCalled := true }))
    ∧ (onAbortedThreadFinished r.1 (some h)).1._filterThread = r.1._filterThread
    ∧ (onAbortedThreadFinished r.1 (some h)).1._gmicImages = r.1._gmicImages
    ∧ (onAbortedThreadFinished r.1 (some h)).1._gmicStatus = r.1._gmicStatus
    ∧ (onAbortedThreadFinished r.1 (some h)).1._parametersVisibilityStates
        = r.1._parametersVisibilityStates
    ∧ (onAbortedThreadFinished r.1 (some h)).1._previewImage = r.1._previewImage
    ∧ (onAbortedThreadFinished r.1 (some h)).1._lastFilterPreviewExecutionDurations
        = r.1._lastFilterPreviewExecutionDurations
    ∧ (onAbortedThreadFinished r.1 (some h)).1._completeFullImageProcessingCount
        = r.1._completeFullImageProcessingCount
    ∧ (onAbortedThreadFinished r.1 (some h)).1._previewRandomSeed = r.1._previewRandomSeed
    ∧ (onAbortedThreadFinished r.1 (some h)).1._lastAppliedFilterHash
        = r.1._lastAppliedFilterHash
    ∧ (onAbortedThreadFinished r.1 (some h)).1._lastAppliedFilterPath
        = r.1._lastAppliedFilterPath
    ∧ (onAbortedThreadFinished r.1 (some h)).1._lastAppliedCommand = r.1._lastAppliedCommand
    ∧ (onAbortedThreadFinished r.1 (some h)).1._lastAppliedCommandArguments
        = r.1._lastAppliedCommandArguments
    ∧ (onAbortedThreadFinished r.1 (some h)).1._lastAppliedCommandGmicStatus
        = r.1._lastAppliedCommandGmicStatus
    ∧ (onAbortedThreadFinished r.1 (some h)).1._lastAppliedCommandInOutState
        = r.1._lastAppliedCommandInOutState
    ∧ (onAbortedThreadFinished r.1 (some h)).2.countP Effect.isOutcome = 0
    ∧ (∀ e ∈ (onAbortedThreadFinished r.1 (some h)).2, e = Effect.noMoreUnfinishedJobs) := by
  have ha := abort_active s0 h hh
  have hv := abort_view s0
  have hlt : h < s0.threads.length := by
    rcases Nat.lt_or_ge h s0.threads.length with h1 | h1
    · exact h1
    · rw [List.getElem?_eq_none h1] at ht; cases ht
  have hctx : (cancel s0).1._filterContext = s0._filterContext := hv.2.1
  have hlen : (cancel s0).1.threads.length = s0.threads.length := hv.2.2.1
  have hret : (cancel s0).1._unfinishedAbortedThreads = s0._unfinishedAbortedThreads ++ [h] :=
    ha.2.1
  have hnone : (cancel s0).1._filterThread = none := ha.1
  have hfacts : r.1._unfinishedAbortedThreads = s0._unfinishedAbortedThreads ++ [h]
      ∧ r.1._filterThread ≠ some h := by
    by_cases hk : (cancel s0).1._filterContext.requestType
        = RequestType.SynchronousPreviewProcessing
    · have hs := execute_sync ext (cancel s0).1 inp r hk hexec
      refine ⟨by rw [hs.2.2.1, hret], ?_⟩
      rw [hs.2.1, hnone]; simp
    · obtain ⟨r1, _, hr1, hact, hr, _⟩ := execute_background ext (cancel s0).1 inp hk
      rw [hr1] at hexec
      simp only [Option.some.injEq] at hexec
      subst hexec
      refine ⟨by rw [hr, hret], ?_⟩
      rw [hact, hlen]
      intro hc
      simp only [Option.some.injEq] at hc
      omega
  have hmem : h ∈ r.1._unfinishedAbortedThreads := by rw [hfacts.1]; simp
  have hstate := aborted_state r.1 h hmem
  refine ⟨hmem, hfacts.2, ⟨_, hstate, updateThread_threads_length _ _ _, ?_, ?_⟩, ?_⟩
  · intro q hq
    exact updateThread_get_other r.1 h q _ (Ne.symm hq)
  · rw [updateThread_get]; simp
  · rw [hstate]
    refine ⟨rfl, rfl, rfl, rfl, rfl, rfl, rfl, rfl, rfl, rfl, rfl, rfl, rfl, rfl, ?_, ?_⟩
    · simp only [onAbortedThreadFinished]
      split <;> simp [List.countP_cons, Effect.isOutcome]
    · intro e he
      simp only [onAbortedThreadFinished] at he
      split at he <;> (simp at he; exact he.2)

/-- Instance of C18: a running interactive preview is cancelled, a new one is
dispatched, and the completion of the first is delivered. -/
theorem late_completion_isolated_witness :
    ((sampleActive RequestType.PreviewProcessing)._filterThread = some 0
      ∧ (sampleActive RequestType.PreviewProcessing).threads[0]?
          = some (threadAt (sampleActive RequestType.PreviewProcessing) 0)
      ∧ execute sampleExternals (cancel (sampleActive RequestType.PreviewProcessing)).1
          (sampleInput 10)
        = some (runFrom (cancel (sampleActive RequestType.PreviewProcessing)).1
            [Event.execute (sampleInput 10)]))
    ∧ 0 ∈ (runFrom (cancel (sampleActive RequestType.PreviewProcessing)).1
        [Event.execute (sampleInput 10)]).1._unfinishedAbortedThreads
    ∧ (runFrom (cancel (sampleActive RequestType.PreviewProcessing)).1
        [Event.execute (sampleInput 10)]).1._filterThread ≠ some 0 :=
  ⟨⟨rfl, rfl, by decide⟩,
    (late_completion_isolated sampleExternals (sampleActive RequestType.PreviewProcessing) 0
      (threadAt (sampleActive RequestType.PreviewProcessing) 0) (sampleInput 10)
      (runFrom (cancel (sampleActive RequestType.PreviewProcessing)).1
        [Event.execute (sampleInput 10)]) rfl rfl (by decide)).1,
    (late_completion_isolated sampleExternals (sampleActive RequestType.PreviewProcessing) 0
      (threadAt (sampleActive RequestType.PreviewProcessing) 0) (sampleInput 10)
      (runFrom (cancel (sampleActive RequestType.PreviewProcessing)).1
        [Event.execute (sampleInput 10)]) rfl rfl (by decide)).2.1⟩

theorem busyStep_of_same (s s1 : GmicProcessor) (ha : s1._filterThread = s._filterThread)
    (hc : s1.overrideCursorWaiting = s.overrideCursorWaiting) : busyStep s s1 := by
  refine ⟨fun h => Or.inr ⟨by rw [← hc]; exact h, ha⟩, fun h1 h2 => ?_⟩
  rw [ha] at h2
  exact absurd h2 h1

theorem busyStep_of_hidden (s s1 : GmicProcessor) (ht : s1.timerActive = false)
    (hc : s1.overrideCursorWaiting = false) : busyStep s s1 := by
  refine ⟨fun h => ?_, fun _ _ => ⟨ht, hc⟩⟩
  rw [hc] at h
  cases h

theorem busyStep_of_active (s s1 : GmicProcessor) (ha : s1._filterThread ≠ none) :
    busyStep s s1 :=
  ⟨fun _ => Or.inl ha, fun _ h2 => absurd h2 ha⟩

theorem abort_busy (s : GmicProcessor) : busyStep s (abortCurrentFilterThread s).1 := by
  cases hh : s._filterThread with
  | none =>
    have : abortCurrentFilterThread s = (s, []) := by simp [abortCurrentFilterThread, hh]
    rw [this]
    exact busyStep_of_same s s rfl rfl
  | some h =>
    have ha := abort_active s h hh
    exact busyStep_of_hidden s _ ha.2.2.2.2.1 ha.2.2.2.2.2.1

theorem step_busy (ext : Externals) (s : GmicProcessor) (e : Event)
    (r : GmicProcessor × List Effect) (h : step ext s e = some r) : busyStep s r.1 := by
  cases e with
  | setContext c =>
    simp only [step, Option.some.injEq] at h; subst h
    exact busyStep_of_same s _ rfl rfl
  | execute inp =>
    simp only [step] at h
    by_cases hk : s._filterContext.requestType = RequestType.SynchronousPreviewProcessing
    · have hs := execute_sync ext s inp r hk h
      exact busyStep_of_hidden s _ hs.2.2.2.2.1 hs.2.2.2.2.2.1
    · have hb := execute_background_frame ext s inp r hk h
      exact busyStep_of_active s _ (by rw [hb.2.2.2.1]; simp)
  | cancel =>
    simp only [step, Option.some.injEq] at h; subst h
    exact abort_busy s
  | init =>
    simp only [step, Option.some.injEq] at h; subst h
    exact abort_busy s
  | threadReturns p o =>
    simp only [step, Option.some.injEq] at h; subst h
    exact busyStep_of_same s _ (by simp [threadReturns]) (by simp [threadReturns])
  | previewThreadFinished elapsed =>
    rcases (onPreviewThreadFinished_frame ext s elapsed r h).2 with h1 | h1
    · rw [h1]; exact busyStep_of_same s s rfl rfl
    · exact busyStep_of_hidden s _ h1.1 h1.2
  | applyThreadFinished =>
    simp only [step] at h
    obtain ⟨p, t, hp, ht, hc⟩ := apply_returns_inv ext s r h
    by_cases hrun : t.running = true
    · rw [apply_running ext s p t hp ht hc hrun] at h
      simp only [Option.some.injEq] at h
      subst h
      exact busyStep_of_same s s rfl rfl
    · obtain ⟨r1, hr1, _, _, h1, h2, _⟩ :=
        apply_finished ext s p t hp ht hc (by simpa using hrun)
      rw [hr1] at h
      simp only [Option.some.injEq] at h
      subst h
      exact busyStep_of_hidden s _ h1 h2
  | abortedThreadFinished sender =>
    simp only [step, Option.some.injEq] at h; subst h
    exact busyStep_of_same s _ (aborted_frame s sender).2.2.1 (aborted_frame s sender).2.2.2.1
  | timerTimeout =>
    simp only [step, Option.some.injEq] at h; subst h
    simp only [timerTimeout, showWaitingCursor]
    split
    · split
      · rename_i hp
        exact busyStep_of_active s _ (by simp [hp])
      · exact busyStep_of_same s _ rfl rfl
    · exact busyStep_of_same s _ rfl rfl

theorem busy_preserved (s s1 : GmicProcessor) (hstep : busyStep s s1)
    (hinv : busyOnlyWhileActive s) : busyOnlyWhileActive s1 := by
  intro hc
  rcases hstep.1 hc with h1 | ⟨h1, h2⟩
  · exact h1
  · rw [h2]; exact hinv h1

theorem run_busy (ext : Externals) (events : List Event) :
    ∀ (s : GmicProcessor) (r : GmicProcessor × List Effect), run ext s events = some r →
      busyOnlyWhileActive s → busyOnlyWhileActive r.1 := by
  induction events with
  | nil =>
    intro s r h hinv
    simp only [run, Option.some.injEq] at h; subst h
    exact hinv
  | cons e rest ih =>
    intro s r h hinv
    simp only [run] at h
    cases hstep : step ext s e with
    | none => simp [hstep] at h
    | some r1 =>
      obtain ⟨s1, eff1⟩ := r1
      simp only [hstep] at h
      cases hrest : run ext s1 rest with
      | none => simp [hrest] at h
      | some r2 =>
        obtain ⟨s2, eff2⟩ := r2
        simp only [hrest, Option.some.injEq] at h
        subst h
        exact ih s1 (s2, eff2) hrest
          (busy_preserved s s1 (step_busy ext s e (s1, eff1) hstep) hinv)

/-- C20: in every state reachable from the constructed coordinator by
`setContext`, `execute`, `cancel`, `init`, timer and completion events the busy
indicator is shown only while a job occupies the active slot. Whenever a step
takes a job out of the active slot, the timer is stopped and the indicator
hidden after it, so the timer firing next shows nothing; and the timer firing
on an empty active slot shows nothing. -/
theorem busy_indicator_invariant (ext : Externals) (context : FilterContext)
    (unspecified : InputOutputState) (rand : Nat) (events : List Event)
    (r : GmicProcessor × List Effect)
    (hrun : run ext (create context unspecified rand) events = some r) :
    (r.1.overrideCursorWaiting = true → r.1._filterThread ≠ none)
    ∧ (∀ e r2, step ext r.1 e = some r2 → r.1._filterThread ≠ none →
        r2.1._filterThread = none →
        r2.1.timerActive = false ∧ r2.1.overrideCursorWaiting = false
          ∧ timerTimeout r2.1 = (r2.1, []))
    ∧ (r.1._filterThread = none →
        showWaitingCursor r.1 = (r.1, [])
        ∧ (timerTimeout r.1).1.overrideCursorWaiting = false
        ∧ (timerTimeout r.1).2 = [])
    ∧ ((showWaitingCursor r.1).1.overrideCursorWaiting = true →
        (showWaitingCursor r.1).1._filterThread ≠ none) := by
  have hinv : busyOnlyWhileActive r.1 :=
    run_busy ext events _ r hrun (by intro h; simp [create] at h)
  refine ⟨hinv, ?_, ?_, ?_⟩
  rotate_left 2
  · simp only [showWaitingCursor]
    split
    · rename_i hp
      intro _
      simp [hp]
    · exact hinv
  · intro e r2 hstep hact hnone
    have hb := (step_busy ext r.1 e r2 hstep).2 hact hnone
    refine ⟨hb.1, hb.2, ?_⟩
    simp [timerTimeout, hb.1]
  · intro hnone
    have hc : r.1.overrideCursorWaiting = false := by
      cases hw : r.1.overrideCursorWaiting with
      | false => rfl
      | true => exact absurd hnone (hinv hw)
    refine ⟨by simp [showWaitingCursor, hnone], ?_, ?_⟩
    · simp only [timerTimeout, showWaitingCursor, hnone]
      split <;> simp [hc]
    · simp only [timerTimeout, showWaitingCursor, hnone]
      split <;> simp

/-- Instance of C20: a preview is dispatched, the timer fires and shows the
indicator, the job returns and is processed; the indicator is hidden again. -/
theorem busy_indicator_invariant_witness :
    run sampleExternals (create (sampleContext RequestType.PreviewProcessing) ⟨100, 100, 100⟩ 7)
        [Event.execute (sampleInput 9), Event.timerTimeout]
      = some (sampleRun RequestType.PreviewProcessing
        [Event.execute (sampleInput 9), Event.timerTimeout])
    ∧ (sampleRun RequestType.PreviewProcessing
        [Event.execute (sampleInput 9), Event.timerTimeout]).1.overrideCursorWaiting = true
    ∧ (sampleRun RequestType.PreviewProcessing
        [Event.execute (sampleInput 9), Event.timerTimeout]).1._filterThread ≠ none
    ∧ (sampleRun RequestType.PreviewProcessing
        [Event.execute (sampleInput 9), Event.timerTimeout,
          Event.threadReturns 0 (sampleOutcome [sampleImage 3]),
          Event.previewThreadFinished 12]).1.overrideCursorWaiting = false :=
  ⟨by decide, by decide,
    (busy_indicator_invariant sampleExternals (sampleContext RequestType.PreviewProcessing)
      ⟨100, 100, 100⟩ 7 [Event.execute (sampleInput 9), Event.timerTimeout]
      (sampleRun RequestType.PreviewProcessing
        [Event.execute (sampleInput 9), Event.timerTimeout]) (by decide)).1 (by decide),
    by decide⟩

end GmicProcessor

/-! ## Markup cleanup: no tag is left -/

namespace HtmlTranslator

theorem closeIndex_eq_none (l : List Char) : closeIndex l = none ↔ '>' ∉ l := by
  induction l with
  | nil => simp [closeIndex]
  | cons c rest ih =>
    unfold closeIndex
    by_cases h : c = '>'
    · simp [h]
    · have h1 : ¬ '>' = c := fun hc => h hc.symm
      simp [h, h1, ih]

/-- A match of `<[^>]*>` at the head is `<`, then characters other than `>`,
then `>`; its length counts all of them. -/
theorem closeIndex_spec (l : List Char) :
    ∀ n, closeIndex l = some n →
      ∃ mid post, l = mid ++ '>' :: post ∧ '>' ∉ mid ∧ n = mid.length := by
  induction l with
  | nil => intro n h; simp [closeIndex] at h
  | cons c rest ih =>
    intro n h
    unfold closeIndex at h
    by_cases hc : c = '>'
    · simp only [hc, if_true, Option.some.injEq] at h
      exact ⟨[], rest, by simp [hc], by simp, by simp [← h]⟩
    · simp only [hc, if_false, Option.map_eq_some'] at h
      obtain ⟨k, hk, hn⟩ := h
      obtain ⟨mid, post, hl, hmid, hlen⟩ := ih k hk
      refine ⟨c :: mid, post, by simp [hl], ?_, by simp [← hn, hlen]⟩
      simp only [List.mem_cons, not_or]
      exact ⟨fun h1 => hc h1.symm, hmid⟩

theorem matchTag_spec (l : List Char) (n : Nat) (h : matchTag l = some n) :
    ∃ mid post, l = '<' :: (mid ++ '>' :: post) ∧ '>' ∉ mid ∧ n = mid.length + 2 := by
  cases l with
  | nil => simp [matchTag] at h
  | cons c rest =>
    unfold matchTag at h
    by_cases hc : c = '<'
    · simp only [hc, if_true, Option.map_eq_some'] at h
      obtain ⟨k, hk, hn⟩ := h
      obtain ⟨mid, post, hl, hmid, hlen⟩ := closeIndex_spec rest k hk
      exact ⟨mid, post, by rw [hc, hl], hmid, by rw [← hn, hlen]⟩
    · simp [hc] at h

theorem matchTag_eq_none (c : Char) (rest : List Char) :
    matchTag (c :: rest) = none ↔ (c = '<' → '>' ∉ rest) := by
  unfold matchTag
  by_cases hc : c = '<'
  · simp [hc, closeIndex_eq_none]
  · simp [hc]

/-- A text without `>` is left as it is. -/
theorem removeMatches_of_no_close (l : List Char) (h : '>' ∉ l) : removeMatches l 0 = l := by
  induction l with
  | nil => rfl
  | cons c rest ih =>
    have hrest : '>' ∉ rest := fun hm => h (List.mem_cons_of_mem c hm)
    have hm : matchTag (c :: rest) = none := (matchTag_eq_none c rest).2 (fun _ => hrest)
    simp only [removeMatches, hm]
    rw [ih hrest]

/-- A text in which no position starts a match is left as it is. -/
theorem removeMatches_of_no_tag (l : List Char) (h : containsTag l = false) :
    removeMatches l 0 = l := by
  induction l with
  | nil => rfl
  | cons c rest ih =>
    simp only [containsTag, Bool.or_eq_false_iff] at h
    have hm : matchTag (c :: rest) = none := by
      cases hx : matchTag (c :: rest) with
      | none => rfl
      | some n => rw [hx] at h; simp at h
    simp only [removeMatches, hm]
    rw [ih h.2]

/-- Whatever is left of a match in progress, the result starts no match at any
position. -/
theorem removeMatches_no_tag (l : List Char) :
    ∀ skip, containsTag (removeMatches l skip) = false := by
  induction l with
  | nil => intro skip; rfl
  | cons c rest ih =>
    intro skip
    cases skip with
    | succ k => simp only [removeMatches]; exact ih k
    | zero =>
      cases hm : matchTag (c :: rest) with
      | some n => simp only [removeMatches, hm]; exact ih (n - 1)
      | none =>
        simp only [removeMatches, hm, containsTag, Bool.or_eq_false_iff]
        refine ⟨?_, ih 0⟩
        have hkeep : matchTag (c :: removeMatches rest 0) = none := by
          rw [matchTag_eq_none]
          intro hc
          have hrest := (matchTag_eq_none c rest).1 hm hc
          rw [removeMatches_of_no_close rest hrest]
          exact hrest
        rw [hkeep]
        rfl

/-- A position starts a match exactly when the text has a `<` with a `>`
somewhere after it. -/
theorem containsTag_iff (l : List Char) :
    containsTag l = true ↔ ∃ pre mid post, l = pre ++ '<' :: (mid ++ '>' :: post) := by
  constructor
  · intro h
    induction l with
    | nil => simp [containsTag] at h
    | cons c rest ih =>
      simp only [containsTag, Bool.or_eq_true] at h
      rcases h with h | h
      · cases hm : matchTag (c :: rest) with
        | none => rw [hm] at h; simp at h
        | some n =>
          obtain ⟨mid, post, hl, _, _⟩ := matchTag_spec _ n hm
          exact ⟨[], mid, post, by simpa using hl⟩
      · obtain ⟨pre, mid, post, hl⟩ := ih h
        exact ⟨c :: pre, mid, post, by simp [hl]⟩
  · rintro ⟨pre, mid, post, hl⟩
    subst hl
    induction pre with
    | nil =>
      have hne : matchTag ('<' :: (mid ++ '>' :: post)) ≠ none := by
        rw [Ne, matchTag_eq_none]
        intro hx
        exact hx rfl (by simp)
      cases hm : matchTag ('<' :: (mid ++ '>' :: post)) with
      | none => exact absurd hm hne
      | some n => simp [containsTag, hm]
    | cons a pre ih =>
      simp only [List.cons_append, containsTag, Bool.or_eq_true]
      exact Or.inr ih

theorem containsTag_drop (l : List Char) (h : containsTag l = false) :
    ∀ i, matchTag (l.drop i) = none := by
  induction l with
  | nil => intro i; simp [matchTag]
  | cons c rest ih =>
    simp only [containsTag, Bool.or_eq_false_iff] at h
    intro i
    cases i with
    | zero =>
      cases hx : matchTag (c :: rest) with
      | none => simpa using hx
      | some n => rw [hx] at h; simp at h
    | succ k => simpa using ih h.2 k

/-- C21: for every string `s`, `removeTags(s)` contains no `<` followed
anywhere later by a `>`, so the expression `<[^>]*>` matches at no position of
it, and `removeTags` is idempotent: `removeTags(removeTags(s)) =
removeTags(s)`. -/
theorem removeTags_leaves_no_tag (str : String) :
    (∀ pre mid post : List Char,
        (removeTags str).data ≠ pre ++ '<' :: (mid ++ '>' :: post))
    ∧ (∀ i, matchTag ((removeTags str).data.drop i) = none)
    ∧ removeTags (removeTags str) = removeTags str := by
  have hno : containsTag (removeTags str).data = false := removeMatches_no_tag str.data 0
  refine ⟨?_, containsTag_drop _ hno, ?_⟩
  · intro pre mid post heq
    have := (containsTag_iff _).2 ⟨pre, mid, post, heq⟩
    rw [hno] at this
    cases this
  · show String.mk (removeMatches (removeTags str).data 0) = removeTags str
    rw [removeMatches_of_no_tag _ hno]

/-- Instance of C21: closed tags are removed, an unclosed `<` stays, and a
second pass changes nothing. -/
theorem removeTags_leaves_no_tag_witness :
    removeTags "<b>bold</b> x > y <i" = "bold x > y <i"
    ∧ removeTags "<a<b>c>" = "c>"
    ∧ removeTags (removeTags "<b>bold</b> x > y <i") = removeTags "<b>bold</b> x > y <i" :=
  ⟨by decide, by decide, (removeTags_leaves_no_tag "<b>bold</b> x > y <i").2.2⟩

end HtmlTranslator

end GmicQt
